import Mathlib

/-!
# NFT query client (x/nft/client/cli/query.go)

A shallow embedding of the five read-only query commands of the NFT module:
`supply`, `owner`, `collection`, `denoms` and `token`.

Each command's `RunE` closure is a straight-line sequence of calls into
collaborators that live outside the module's client package (the address
parser, the JSON codec, the node transport and the output renderer), with an
early `return err` after each fallible call.  The collaborators are taken as
parameters (`Env`); every call a command makes is recorded, in order, in the
`calls` field of the `Run` it produces, so that statements such as "the
transport is never called" are statements about that list.
-/

namespace Nft

/-! ## Data model -/

/-- Go `error` value: an opaque failure description. -/
structure GoError where
  msg : String
deriving DecidableEq, Repr

/-- Go `[]byte`. -/
abbrev Bytes := List (Fin 256)

/-- Result of `sdk.AccAddressFromBech32`: the raw address bytes. -/
abbrev AccAddress := Bytes

/-- Modelled from the spec: the three parameter shapes of section 3
(`CollectionParams`, `BalanceParams`, `NFTParams`); their Go declarations
(`types.QueryCollectionParams`, `types.QueryBalanceParams`,
`types.QueryNFTParams`) are outside the given sources.  The denomination of
`BalanceParams` is a plain string, empty when no filter was requested. -/
inductive QueryParams where
  | CollectionParams (denom : String)
  | BalanceParams (owner : AccAddress) (denom : String)
  | NFTParams (denom : String) (tokenID : String)
deriving DecidableEq, Repr

/-- Modelled from the spec: `types.NewQueryCollectionParams`, the constructor
of `CollectionParams`, declared outside the given sources. -/
def NewQueryCollectionParams (denom : String) : QueryParams :=
  .CollectionParams denom

/-- Modelled from the spec: `types.NewQueryBalanceParams`, the constructor of
`BalanceParams`, declared outside the given sources. -/
def NewQueryBalanceParams (address : AccAddress) (denom : String) : QueryParams :=
  .BalanceParams address denom

/-- Modelled from the spec: `types.NewQueryNFTParams`, the constructor of
`NFTParams`, declared outside the given sources. -/
def NewQueryNFTParams (denom : String) (id : String) : QueryParams :=
  .NFTParams denom id

/-- Modelled from the spec: `exported.NFT`, the capability set
(has ID / has owner / has metadata) of section 3; the Go interface is
declared outside the given sources. -/
structure NFT where
  id : String
  owner : AccAddress
  metadata : String
deriving DecidableEq, Repr

/-- Modelled from the spec: `types.Collection`, a denomination plus the NFTs
sharing it; declared outside the given sources. -/
structure Collection where
  denom : String
  nfts : List NFT
deriving DecidableEq, Repr

/-- Modelled from the spec: `types.Owner`, an account address plus the
(denomination, token ID) pairs it holds; declared outside the given sources. -/
structure Owner where
  address : AccAddress
  holdings : List (String × String)
deriving DecidableEq, Repr

/-- Modelled from the spec: `types.SortedStringArray`, "an ordered sequence of
denominations returned by the list-all-denominations query; invariant:
lexicographically sorted, no duplicates"; the Go type is declared outside the
given sources.  A value is a sequence of strings together with that
invariant. -/
abbrev SortedStringArray := {l : List String // l.Sorted (· ≤ ·) ∧ l.Nodup}

/-- The four Go types a response is unmarshalled into (`var out ...`). -/
inductive Shape where
  | NFT
  | Owner
  | Collection
  | SortedStringArray
deriving DecidableEq, Repr

/-- Name of the Go type behind each shape. -/
def Shape.name : Shape → String
  | .NFT => "exported.NFT"
  | .Owner => "types.Owner"
  | .Collection => "types.Collection"
  | .SortedStringArray => "types.SortedStringArray"

/-- A decoded value as it is passed to `cliCtx.PrintOutput`. -/
inductive Output where
  | nft (out : NFT)
  | owner (out : Owner)
  | collection (out : Collection)
  | denoms (out : SortedStringArray)
deriving DecidableEq, Repr

/-! ## Collaborators -/

/-- The collaborators a command calls.  `σ` is the state of the world the
transport talks to (the remote node); a transport call may change it. -/
structure Env (σ : Type) where
  /-- Constant `types.ModuleName`, the value of `STOREKEY`. -/
  ModuleName : String
  /-- Function `sdk.AccAddressFromBech32`. -/
  AccAddressFromBech32 : String → Except GoError AccAddress
  /-- Method `cdc.MarshalJSON`, applied to a parameter object. -/
  MarshalJSON : QueryParams → Except GoError Bytes
  /-- Method `cliCtx.QueryWithData`: path, request data, world before;
  response (or error) and world after. -/
  QueryWithData : String → Bytes → σ → Except GoError Bytes × σ
  /-- Method `cdc.UnmarshalJSON` into `var out exported.NFT`. -/
  UnmarshalNFT : Bytes → Except GoError NFT
  /-- Method `cdc.UnmarshalJSON` into `var out types.Owner`. -/
  UnmarshalOwner : Bytes → Except GoError Owner
  /-- Method `cdc.UnmarshalJSON` into `var out types.Collection`. -/
  UnmarshalCollection : Bytes → Except GoError Collection
  /-- Method `cdc.UnmarshalJSON` into `var out types.SortedStringArray`. -/
  UnmarshalSortedStringArray : Bytes → Except GoError SortedStringArray
  /-- Method `cliCtx.PrintOutput`; its `error` result is what `RunE` returns. -/
  PrintOutput : Output → Except GoError Unit

/-- One call into a collaborator. -/
inductive Event where
  | AccAddressFromBech32 (s : String)
  | MarshalJSON (params : QueryParams)
  | QueryWithData (path : String) (data : Bytes)
  | UnmarshalJSON (shape : Shape) (res : Bytes)
  | PrintOutput (out : Output)
deriving DecidableEq, Repr

/-- What a `RunE` closure does with control: returns `nil`, returns an error,
or panics on an out-of-range `args[i]`. -/
inductive Outcome where
  | nil
  | err (e : GoError)
  | panic
deriving DecidableEq, Repr

/-- The `error` result of a collaborator as a `RunE` return value. -/
def Outcome.ofExcept : Except GoError Unit → Outcome
  | .ok _ => .nil
  | .error e => .err e

/-- Everything observable about one invocation: the value returned, the world
afterwards, and the collaborator calls made, in order. -/
structure Run (σ : Type) where
  ret : Outcome
  world : σ
  calls : List Event
deriving DecidableEq

/-- Whether an event is a transport call. -/
def Event.isQueryWithData : Event → Bool
  | .QueryWithData _ _ => true
  | _ => false

/-- Number of transport calls in a list of calls. -/
def transportCalls (calls : List Event) : Nat :=
  calls.countP Event.isQueryWithData

/-- Whether an event belongs to the request side of a query (address
parsing, parameter encoding, submission) rather than to the handling of the
response (decoding, rendering). -/
def Event.isRequestSide : Event → Bool
  | .AccAddressFromBech32 _ => true
  | .MarshalJSON _ => true
  | .QueryWithData _ _ => true
  | .UnmarshalJSON _ _ => false
  | .PrintOutput _ => false

/-- The calls a command makes on the response: decoding and rendering. -/
def responseSide (calls : List Event) : List Event :=
  calls.filter fun ev => !ev.isRequestSide

/-! ## cobra -/

/-- The fields of `cobra.Command` the commands set (documentation strings
apart). -/
structure Command (σ : Type) where
  Use : String
  Args : List String → Except GoError Unit
  RunE : List String → σ → Run σ

/-- Validator `cobra.ExactArgs(n)`. -/
def ExactArgs (n : Nat) (args : List String) : Except GoError Unit :=
  if args.length != n then
    .error ⟨"accepts " ++ toString n ++ " arg(s), received " ++ toString args.length⟩
  else .ok ()

/-- Validator `cobra.RangeArgs(min, max)`. -/
def RangeArgs (min max : Nat) (args : List String) : Except GoError Unit :=
  if args.length < min || args.length > max then
    .error ⟨"accepts between " ++ toString min ++ " and " ++ toString max
      ++ " arg(s), received " ++ toString args.length⟩
  else .ok ()

/-- Running a command: the positional arguments are validated by `Args`
first; `RunE` runs only when they pass. -/
def Command.Execute {σ : Type} (c : Command σ) (args : List String) (w : σ) : Run σ :=
  match c.Args args with
  | .error e => ⟨.err e, w, []⟩
  | .ok _ => c.RunE args w

/-! ## Query paths -/

/-- Package variable `STOREKEY = types.ModuleName`. -/
def STOREKEY {σ : Type} (env : Env σ) : String := env.ModuleName

/-- Path `fmt.Sprintf("custom/%s/supply/%s", STOREKEY, denom)`. -/
def supplyPath (storekey denom : String) : String :=
  "custom/" ++ storekey ++ "/supply/" ++ denom

/-- Path `fmt.Sprintf("custom/%s/owner", STOREKEY)`. -/
def ownerPath (storekey : String) : String :=
  "custom/" ++ storekey ++ "/owner"

/-- Path `fmt.Sprintf("custom/%s/ownerByDenom", STOREKEY)`. -/
def ownerByDenomPath (storekey : String) : String :=
  "custom/" ++ storekey ++ "/ownerByDenom"

/-- Path `fmt.Sprintf("custom/%s/collection", STOREKEY)`. -/
def collectionPath (storekey : String) : String :=
  "custom/" ++ storekey ++ "/collection"

/-- Path `fmt.Sprintf("custom/%s/denoms", STOREKEY)`. -/
def denomsPath (storekey : String) : String :=
  "custom/" ++ storekey ++ "/denoms"

/-- Path `fmt.Sprintf("custom/%s/nft", STOREKEY)`. -/
def nftPath (storekey : String) : String :=
  "custom/" ++ storekey ++ "/nft"

/-! ## The commands -/

/-- Closure `RunE` of `GetCmdQueryCollectionSupply`. -/
def GetCmdQueryCollectionSupply.RunE {σ : Type} (env : Env σ)
    (args : List String) (w : σ) : Run σ :=
  match args[0]? with
  | none => ⟨.panic, w, []⟩
  | some denom =>
    let params := NewQueryCollectionParams denom
    match env.MarshalJSON params with
    | .error err => ⟨.err err, w, [.MarshalJSON params]⟩
    | .ok bz =>
      let path := supplyPath (STOREKEY env) denom
      match env.QueryWithData path bz w with
      | (.error err, w1) => ⟨.err err, w1, [.MarshalJSON params, .QueryWithData path bz]⟩
      | (.ok res, w1) =>
        match env.UnmarshalNFT res with
        | .error err =>
          ⟨.err err, w1,
            [.MarshalJSON params, .QueryWithData path bz, .UnmarshalJSON .NFT res]⟩
        | .ok out =>
          ⟨.ofExcept (env.PrintOutput (.nft out)), w1,
            [.MarshalJSON params, .QueryWithData path bz, .UnmarshalJSON .NFT res,
             .PrintOutput (.nft out)]⟩

/-- Command `supply [denom]`. -/
def GetCmdQueryCollectionSupply {σ : Type} (env : Env σ) : Command σ where
  Use := "supply [denom]"
  Args := ExactArgs 1
  RunE := GetCmdQueryCollectionSupply.RunE env

/-- Closure `RunE` of `GetCmdQueryOwner`. -/
def GetCmdQueryOwner.RunE {σ : Type} (env : Env σ)
    (args : List String) (w : σ) : Run σ :=
  match args[0]? with
  | none => ⟨.panic, w, []⟩
  | some arg0 =>
    match env.AccAddressFromBech32 arg0 with
    | .error err => ⟨.err err, w, [.AccAddressFromBech32 arg0]⟩
    | .ok address =>
      let denom := if args.length = 2 then args.getD 1 "" else ""
      let params := NewQueryBalanceParams address denom
      match env.MarshalJSON params with
      | .error err => ⟨.err err, w, [.AccAddressFromBech32 arg0, .MarshalJSON params]⟩
      | .ok bz =>
        let path := if denom = "" then ownerPath (STOREKEY env)
                    else ownerByDenomPath (STOREKEY env)
        match env.QueryWithData path bz w with
        | (.error err, w1) =>
          ⟨.err err, w1,
            [.AccAddressFromBech32 arg0, .MarshalJSON params, .QueryWithData path bz]⟩
        | (.ok res, w1) =>
          match env.UnmarshalOwner res with
          | .error err =>
            ⟨.err err, w1,
              [.AccAddressFromBech32 arg0, .MarshalJSON params, .QueryWithData path bz,
               .UnmarshalJSON .Owner res]⟩
          | .ok out =>
            ⟨.ofExcept (env.PrintOutput (.owner out)), w1,
              [.AccAddressFromBech32 arg0, .MarshalJSON params, .QueryWithData path bz,
               .UnmarshalJSON .Owner res, .PrintOutput (.owner out)]⟩

/-- Command `owner [accountAddress] [denom]`. -/
def GetCmdQueryOwner {σ : Type} (env : Env σ) : Command σ where
  Use := "owner [accountAddress] [denom]"
  Args := RangeArgs 1 2
  RunE := GetCmdQueryOwner.RunE env

/-- Closure `RunE` of `GetCmdQueryCollection`. -/
def GetCmdQueryCollection.RunE {σ : Type} (env : Env σ)
    (args : List String) (w : σ) : Run σ :=
  match args[0]? with
  | none => ⟨.panic, w, []⟩
  | some denom =>
    let params := NewQueryCollectionParams denom
    match env.MarshalJSON params with
    | .error err => ⟨.err err, w, [.MarshalJSON params]⟩
    | .ok bz =>
      let path := collectionPath (STOREKEY env)
      match env.QueryWithData path bz w with
      | (.error err, w1) => ⟨.err err, w1, [.MarshalJSON params, .QueryWithData path bz]⟩
      | (.ok res, w1) =>
        match env.UnmarshalCollection res with
        | .error err =>
          ⟨.err err, w1,
            [.MarshalJSON params, .QueryWithData path bz, .UnmarshalJSON .Collection res]⟩
        | .ok out =>
          ⟨.ofExcept (env.PrintOutput (.collection out)), w1,
            [.MarshalJSON params, .QueryWithData path bz, .UnmarshalJSON .Collection res,
             .PrintOutput (.collection out)]⟩

/-- Command `collection [denom]`. -/
def GetCmdQueryCollection {σ : Type} (env : Env σ) : Command σ where
  Use := "collection [denom]"
  Args := ExactArgs 1
  RunE := GetCmdQueryCollection.RunE env

/-- Closure `RunE` of `GetCmdQueryDenoms`; the request data is `nil`. -/
def GetCmdQueryDenoms.RunE {σ : Type} (env : Env σ)
    (_args : List String) (w : σ) : Run σ :=
  let path := denomsPath (STOREKEY env)
  match env.QueryWithData path [] w with
  | (.error err, w1) => ⟨.err err, w1, [.QueryWithData path []]⟩
  | (.ok res, w1) =>
    match env.UnmarshalSortedStringArray res with
    | .error err =>
      ⟨.err err, w1, [.QueryWithData path [], .UnmarshalJSON .SortedStringArray res]⟩
    | .ok out =>
      ⟨.ofExcept (env.PrintOutput (.denoms out)), w1,
        [.QueryWithData path [], .UnmarshalJSON .SortedStringArray res,
         .PrintOutput (.denoms out)]⟩

/-- Command `denoms`. -/
def GetCmdQueryDenoms {σ : Type} (env : Env σ) : Command σ where
  Use := "denoms"
  Args := ExactArgs 0
  RunE := GetCmdQueryDenoms.RunE env

/-- Closure `RunE` of `GetCmdQueryNFT`. -/
def GetCmdQueryNFT.RunE {σ : Type} (env : Env σ)
    (args : List String) (w : σ) : Run σ :=
  match args[0]? with
  | none => ⟨.panic, w, []⟩
  | some denom =>
    match args[1]? with
    | none => ⟨.panic, w, []⟩
    | some id =>
      let params := NewQueryNFTParams denom id
      match env.MarshalJSON params with
      | .error err => ⟨.err err, w, [.MarshalJSON params]⟩
      | .ok bz =>
        let path := nftPath (STOREKEY env)
        match env.QueryWithData path bz w with
        | (.error err, w1) => ⟨.err err, w1, [.MarshalJSON params, .QueryWithData path bz]⟩
        | (.ok res, w1) =>
          match env.UnmarshalNFT res with
          | .error err =>
            ⟨.err err, w1,
              [.MarshalJSON params, .QueryWithData path bz, .UnmarshalJSON .NFT res]⟩
          | .ok out =>
            ⟨.ofExcept (env.PrintOutput (.nft out)), w1,
              [.MarshalJSON params, .QueryWithData path bz, .UnmarshalJSON .NFT res,
               .PrintOutput (.nft out)]⟩

/-- Command `token [denom] [ID]`. -/
def GetCmdQueryNFT {σ : Type} (env : Env σ) : Command σ where
  Use := "token [denom] [ID]"
  Args := ExactArgs 2
  RunE := GetCmdQueryNFT.RunE env

/-- The subcommands `GetQueryCmd` registers, in order. -/
def GetQueryCmd {σ : Type} (env : Env σ) : List (Command σ) :=
  [GetCmdQueryCollectionSupply env,
   GetCmdQueryOwner env,
   GetCmdQueryCollection env,
   GetCmdQueryDenoms env,
   GetCmdQueryNFT env]

/-! ## Definitions used to state the properties -/

/-- Section 4.5 of the specification read as a composition of fallible steps:
encode, submit, decode, render.  Its value is the error of the first step
that fails, or success when none does. -/
def querySteps {σ α : Type} (env : Env σ) (encode : Except GoError Bytes) (path : String)
    (decode : Bytes → Except GoError α) (wrap : α → Output) (w : σ) : Except GoError Unit := do
  let bz ← encode
  let res ← (env.QueryWithData path bz w).1
  let out ← decode res
  env.PrintOutput (wrap out)

/-- The path the owner query submits to, for a given filter. -/
def ownerQueryPath {σ : Type} (env : Env σ) (denom : String) : String :=
  if denom = "" then ownerPath (STOREKEY env) else ownerByDenomPath (STOREKEY env)

/-- What a command does with response bytes `res`: the value it returns and
the calls it makes after the transport call, as a function of the bytes, the
decoder for the expected shape and the renderer alone. -/
def handleResponse {σ α : Type} (env : Env σ) (shape : Shape)
    (decode : Bytes → Except GoError α) (wrap : α → Output) (res : Bytes) :
    Outcome × List Event :=
  match decode res with
  | .error err => (.err err, [.UnmarshalJSON shape res])
  | .ok out => (.ofExcept (env.PrintOutput (wrap out)),
      [.UnmarshalJSON shape res, .PrintOutput (wrap out)])

/-! ## A concrete environment

A small, fully computable set of collaborators, used to evaluate the commands
on concrete inputs. -/

/-- World of the concrete environment: a node that counts the requests it has
served, answers the denoms path with the bytes `denoms` (the JSON text of the
denominations it holds) and, when `garbage` is set, answers every request
with those bytes instead. -/
structure DemoNode where
  served : Nat
  denoms : Bytes
  garbage : Option Bytes
deriving DecidableEq, Repr

/-- The bytes of the JSON text `["a-coins","b-coins"]`. -/
def coinsJSON : Bytes :=
  [91, 34, 97, 45, 99, 111, 105, 110, 115, 34, 44, 34, 98, 45, 99, 111, 105, 110, 115, 34, 93]

/-- The bytes of the JSON text `[]`. -/
def emptyJSON : Bytes := [91, 93]

/-- A healthy node holding the collections `b-coins` and `a-coins`; it lists
them as `["a-coins","b-coins"]`. -/
def demoNode : DemoNode := ⟨0, coinsJSON, none⟩

/-- A healthy node holding no collection; it lists them as `[]`. -/
def emptyNode : DemoNode := ⟨0, emptyJSON, none⟩

/-- A node that answers every request with the given bytes. -/
def brokenNode (bz : Bytes) : DemoNode := ⟨0, [], some bz⟩

/-- Address parser of the concrete environment: accepts a string exactly when
it starts with the human-readable part `cosmos1`; the address bytes are the
code points of the remainder, reduced to a byte. -/
def demoAccAddressFromBech32 (s : String) : Except GoError AccAddress :=
  if s.data.take 7 = "cosmos1".data then
    .ok ((s.data.drop 7).map fun c => Fin.ofNat c.toNat)
  else .error ⟨"decoding bech32 failed"⟩

/-- Parameter encoder of the concrete environment: a tag byte for the shape
followed by the total length of the string fields; it rejects a token
parameter whose ID is empty. -/
def demoMarshalJSON : QueryParams → Except GoError Bytes
  | .CollectionParams denom => .ok [1, Fin.ofNat denom.length]
  | .BalanceParams owner denom => .ok (2 :: Fin.ofNat denom.length :: owner)
  | .NFTParams denom id =>
    if id = "" then .error ⟨"cannot encode empty token ID"⟩
    else .ok [3, Fin.ofNat denom.length, Fin.ofNat id.length]

/-- Transport of the concrete environment: it fails for the path
`custom/nft/supply/down`; a node with `garbage` set answers with those bytes;
otherwise the path `custom/nft/denoms` is answered with the node's
collections and every other path with the request data.  Every call is
counted. -/
def demoQueryWithData (path : String) (data : Bytes) (w : DemoNode) :
    Except GoError Bytes × DemoNode :=
  let w1 : DemoNode := ⟨w.served + 1, w.denoms, w.garbage⟩
  if path = "custom/nft/supply/down" then (.error ⟨"node unreachable"⟩, w1)
  else match w.garbage with
    | some bz => (.ok bz, w1)
    | none => if path = "custom/nft/denoms" then (.ok w.denoms, w1) else (.ok data, w1)

/-- NFT decoder of the concrete environment. -/
def demoUnmarshalNFT : Bytes → Except GoError NFT
  | [3, _, n] => .ok ⟨"token-" ++ toString n.val, [], "meta"⟩
  | _ => .error ⟨"unexpected end of JSON input"⟩

/-- Owner decoder of the concrete environment. -/
def demoUnmarshalOwner : Bytes → Except GoError Owner
  | 2 :: _ :: address => .ok ⟨address, []⟩
  | _ => .error ⟨"unexpected end of JSON input"⟩

/-- Collection decoder of the concrete environment. -/
def demoUnmarshalCollection : Bytes → Except GoError Collection
  | [1, n] => .ok ⟨"denom-" ++ toString n.val, []⟩
  | _ => .error ⟨"unexpected end of JSON input"⟩

/-- Denomination-list decoder of the concrete environment: it accepts the
JSON texts `[]` and `["a-coins","b-coins"]` and rejects every other
response. -/
def demoUnmarshalSortedStringArray (bz : Bytes) : Except GoError SortedStringArray :=
  if bz = emptyJSON then .ok ⟨[], by simp⟩
  else if bz = coinsJSON then
    .ok ⟨["a-coins", "b-coins"],
      by simp only [List.Sorted, List.pairwise_cons, List.mem_singleton, forall_eq,
           String.le_iff_toList_le]; decide,
      by decide⟩
  else .error ⟨"unexpected end of JSON input"⟩

/-- The concrete environment with a renderer that fails on every value. -/
def demoEnvFailingPrint : Env DemoNode where
  ModuleName := "nft"
  AccAddressFromBech32 := demoAccAddressFromBech32
  MarshalJSON := demoMarshalJSON
  QueryWithData := demoQueryWithData
  UnmarshalNFT := demoUnmarshalNFT
  UnmarshalOwner := demoUnmarshalOwner
  UnmarshalCollection := demoUnmarshalCollection
  UnmarshalSortedStringArray := demoUnmarshalSortedStringArray
  PrintOutput := fun _ => .error ⟨"failed to marshal output"⟩

/-- The concrete environment. -/
def demoEnv : Env DemoNode where
  ModuleName := "nft"
  AccAddressFromBech32 := demoAccAddressFromBech32
  MarshalJSON := demoMarshalJSON
  QueryWithData := demoQueryWithData
  UnmarshalNFT := demoUnmarshalNFT
  UnmarshalOwner := demoUnmarshalOwner
  UnmarshalCollection := demoUnmarshalCollection
  UnmarshalSortedStringArray := demoUnmarshalSortedStringArray
  PrintOutput := fun _ => .ok ()

end Nft


namespace Nft

/-! ## Strings and paths -/

theorem string_append_left_cancel {a b c : String} (h : a ++ b = a ++ c) : b = c := by
  have h1 := congrArg String.data h
  simp only [String.data_append] at h1
  exact String.ext (List.append_cancel_left h1)

theorem supplyPath_eq (m d : String) :
    supplyPath m d = "custom/" ++ m ++ "/" ++ "supply/" ++ d := by
  apply String.ext
  simp [supplyPath, String.data_append]

theorem supplyPath_injective (m d1 d2 : String) (h : supplyPath m d1 = supplyPath m d2) :
    d1 = d2 :=
  string_append_left_cancel h

theorem path_ne (m x y : String) (hxy : x.data ≠ y.data) :
    "custom/" ++ m ++ x ≠ "custom/" ++ m ++ y :=
  fun h => hxy (congrArg String.data (string_append_left_cancel h))

theorem paths_nodup (m d : String) :
    [supplyPath m d, ownerPath m, ownerByDenomPath m, collectionPath m,
      denomsPath m, nftPath m].Nodup := by
  have hs : ∀ y : String, y.data.head? ≠ some '/' ∨ (y.data.drop 1).head? ≠ some 's' →
      supplyPath m d ≠ "custom/" ++ m ++ y := by
    intro y hy h
    have h0 : "custom/" ++ m ++ ("/supply/" ++ d) = "custom/" ++ m ++ y := by
      rw [← String.append_assoc]; exact h
    have h1 := congrArg String.data (string_append_left_cancel h0)
    rw [String.data_append] at h1
    rw [← h1] at hy
    simp at hy
  simp only [List.nodup_cons, List.mem_cons, List.mem_singleton, List.not_mem_nil,
    List.nodup_nil, not_or, not_false_eq_true, and_true]
  refine ⟨⟨?_, ?_, ?_, ?_, ?_⟩, ⟨?_, ?_, ?_, ?_⟩, ⟨?_, ?_, ?_⟩, ⟨?_, ?_⟩, ?_⟩
  · exact hs _ (by decide)
  · exact hs _ (by decide)
  · exact hs _ (by decide)
  · exact hs _ (by decide)
  · exact hs _ (by decide)
  · exact path_ne m _ _ (by decide)
  · exact path_ne m _ _ (by decide)
  · exact path_ne m _ _ (by decide)
  · exact path_ne m _ _ (by decide)
  · exact path_ne m _ _ (by decide)
  · exact path_ne m _ _ (by decide)
  · exact path_ne m _ _ (by decide)
  · exact path_ne m _ _ (by decide)
  · exact path_ne m _ _ (by decide)
  · exact path_ne m _ _ (by decide)

end Nft

namespace Nft

/-! ## Routing of the owner query -/

theorem ownerPath_nft : ownerPath "nft" = "custom/nft/owner" := by decide

theorem ownerByDenomPath_nft : ownerByDenomPath "nft" = "custom/nft/ownerByDenom" := by decide

theorem owner_ne_ownerByDenom : "custom/nft/owner" ≠ "custom/nft/ownerByDenom" := by decide

theorem owner_query_mem {σ : Type} (env : Env σ) (args : List String) (w : σ)
    (path : String) (data : Bytes)
    (h : Event.QueryWithData path data ∈ (GetCmdQueryOwner.RunE env args w).calls) :
    ∃ arg0 address, args[0]? = some arg0 ∧ env.AccAddressFromBech32 arg0 = .ok address ∧
      env.MarshalJSON (NewQueryBalanceParams address
        (if args.length = 2 then args.getD 1 "" else "")) = .ok data ∧
      path = (if (if args.length = 2 then args.getD 1 "" else "") = ""
        then ownerPath (STOREKEY env) else ownerByDenomPath (STOREKEY env)) := by
  unfold GetCmdQueryOwner.RunE at h
  repeat' first | split at h | dsimp only at h
  all_goals simp_all

theorem owner_Execute_eq {σ : Type} (env : Env σ) (args : List String) (w : σ)
    (hlen : args.length = 1 ∨ args.length = 2) :
    (GetCmdQueryOwner env).Execute args w = GetCmdQueryOwner.RunE env args w := by
  rcases hlen with h | h <;>
    simp [Command.Execute, GetCmdQueryOwner, RangeArgs, h]

theorem owner_filter_eq (args : List String) (hlen : args.length = 1 ∨ args.length = 2) :
    (if args.length = 2 then args.getD 1 "" else "") = args.getD 1 "" := by
  rcases hlen with h | h
  · match args, h with
    | [_], _ => rfl
  · simp [h]

/-- C1: in the owner query, for every argument list of length 1 or 2, a
request is submitted to `custom/nft/owner` exactly when the denomination
filter (the second argument, or the empty string when there is none) is
empty, and to `custom/nft/ownerByDenom` exactly when it is non-empty; no other
path is used; and whenever the address is valid and the parameters encode,
the request is indeed submitted to that path. -/
theorem owner_query_routing {σ : Type} (env : Env σ) (args : List String) (w : σ)
    (hm : env.ModuleName = "nft") (hlen : args.length = 1 ∨ args.length = 2) :
    (∀ path data,
      Event.QueryWithData path data ∈ ((GetCmdQueryOwner env).Execute args w).calls →
        (path = "custom/nft/owner" ↔ args.getD 1 "" = "") ∧
        (path = "custom/nft/ownerByDenom" ↔ args.getD 1 "" ≠ "") ∧
        (path = "custom/nft/owner" ∨ path = "custom/nft/ownerByDenom")) ∧
    (∀ address bz,
      env.AccAddressFromBech32 (args.getD 0 "") = .ok address →
      env.MarshalJSON (NewQueryBalanceParams address (args.getD 1 "")) = .ok bz →
        Event.QueryWithData
          (if args.getD 1 "" = "" then "custom/nft/owner" else "custom/nft/ownerByDenom") bz
          ∈ ((GetCmdQueryOwner env).Execute args w).calls) := by
  rw [owner_Execute_eq env args w hlen]
  constructor
  · intro path data h
    obtain ⟨arg0, address, -, -, -, hp⟩ := owner_query_mem env args w path data h
    rw [owner_filter_eq args hlen] at hp
    simp only [STOREKEY, hm, ownerPath_nft, ownerByDenomPath_nft] at hp
    by_cases hd : args.getD 1 "" = ""
    · rw [if_pos hd] at hp
      subst hp
      exact ⟨⟨fun _ => hd, fun _ => rfl⟩,
        ⟨fun h => absurd h owner_ne_ownerByDenom, fun h => absurd hd h⟩, Or.inl rfl⟩
    · rw [if_neg hd] at hp
      subst hp
      exact ⟨⟨fun h => absurd h owner_ne_ownerByDenom.symm, fun h => absurd h hd⟩,
        ⟨fun _ => hd, fun _ => rfl⟩, Or.inr rfl⟩
  · intro address bz ha hb
    have h0 : args[0]? = some (args.getD 0 "") := by
      match args, hlen with
      | [_], _ => rfl
      | [_, _], _ => rfl
    unfold GetCmdQueryOwner.RunE
    rw [owner_filter_eq args hlen]
    simp only [h0, ha, hb, STOREKEY, hm, ownerPath_nft, ownerByDenomPath_nft]
    repeat' first | split | dsimp only
    all_goals simp

/-- Witness for C1 on the concrete environment: with one argument the request
goes to `custom/nft/owner`, with a second, non-empty one to
`custom/nft/ownerByDenom`. -/
theorem owner_query_routing_witness :
    Event.QueryWithData "custom/nft/owner" [2, 0, 97, 98, 99]
        ∈ ((GetCmdQueryOwner demoEnv).Execute ["cosmos1abc"] demoNode).calls ∧
    Event.QueryWithData "custom/nft/ownerByDenom" [2, 7, 97, 98, 99]
        ∈ ((GetCmdQueryOwner demoEnv).Execute ["cosmos1abc", "kitties"] demoNode).calls :=
  ⟨(owner_query_routing demoEnv ["cosmos1abc"] demoNode rfl (Or.inl rfl)).2
      [97, 98, 99] [2, 0, 97, 98, 99] rfl rfl,
   (owner_query_routing demoEnv ["cosmos1abc", "kitties"] demoNode rfl (Or.inr rfl)).2
      [97, 98, 99] [2, 7, 97, 98, 99] rfl rfl⟩

end Nft

namespace Nft

/-! ## Rejected addresses -/

/-- C2: in the owner query, when the address parser rejects the first
argument, the command returns the parser's error, leaves the world untouched,
and its only call is the parse itself: no parameter is encoded, the transport
is not called, nothing is decoded and nothing is rendered.  The same holds
when the command is run through its argument validator. -/
theorem owner_rejected_address {σ : Type} (env : Env σ) (arg0 : String)
    (rest : List String) (w : σ) (e : GoError)
    (hbad : env.AccAddressFromBech32 arg0 = .error e) :
    GetCmdQueryOwner.RunE env (arg0 :: rest) w
        = ⟨.err e, w, [.AccAddressFromBech32 arg0]⟩ ∧
    (∀ params, Event.MarshalJSON params ∉ (GetCmdQueryOwner.RunE env (arg0 :: rest) w).calls) ∧
    (∀ path data,
      Event.QueryWithData path data ∉ (GetCmdQueryOwner.RunE env (arg0 :: rest) w).calls) ∧
    transportCalls (GetCmdQueryOwner.RunE env (arg0 :: rest) w).calls = 0 ∧
    (∀ shape res,
      Event.UnmarshalJSON shape res ∉ (GetCmdQueryOwner.RunE env (arg0 :: rest) w).calls) ∧
    (∀ out, Event.PrintOutput out ∉ (GetCmdQueryOwner.RunE env (arg0 :: rest) w).calls) ∧
    (rest.length ≤ 1 →
      (GetCmdQueryOwner env).Execute (arg0 :: rest) w
        = ⟨.err e, w, [.AccAddressFromBech32 arg0]⟩) := by
  have hrun : GetCmdQueryOwner.RunE env (arg0 :: rest) w
      = ⟨.err e, w, [.AccAddressFromBech32 arg0]⟩ := by
    simp [GetCmdQueryOwner.RunE, hbad]
  refine ⟨hrun, ?_, ?_, ?_, ?_, ?_, ?_⟩
  · simp [hrun]
  · simp [hrun]
  · simp [hrun, transportCalls, Event.isQueryWithData]
  · simp [hrun]
  · simp [hrun]
  · intro hr
    rw [owner_Execute_eq env (arg0 :: rest) w (by simp only [List.length_cons]; omega), hrun]

/-- Witness for C2: the argument `not-an-address` on the concrete
environment. -/
theorem owner_rejected_address_witness :
    (GetCmdQueryOwner demoEnv).Execute ["not-an-address"] demoNode
        = ⟨.err ⟨"decoding bech32 failed"⟩, demoNode,
            [.AccAddressFromBech32 "not-an-address"]⟩ ∧
    transportCalls (GetCmdQueryOwner.RunE demoEnv ["not-an-address"] demoNode).calls = 0 :=
  have h := owner_rejected_address demoEnv "not-an-address" [] demoNode
    ⟨"decoding bech32 failed"⟩ rfl
  ⟨h.2.2.2.2.2.2 (by decide), h.2.2.2.1⟩

/-! ## Paths used by the commands -/

theorem collection_query_mem {σ : Type} (env : Env σ) (args : List String) (w : σ)
    (path : String) (data : Bytes)
    (h : Event.QueryWithData path data ∈ (GetCmdQueryCollection.RunE env args w).calls) :
    ∃ denom, args[0]? = some denom ∧ path = collectionPath (STOREKEY env) ∧
      env.MarshalJSON (NewQueryCollectionParams denom) = .ok data := by
  unfold GetCmdQueryCollection.RunE at h
  repeat' first | split at h | dsimp only at h
  all_goals simp_all

theorem supply_query_mem {σ : Type} (env : Env σ) (args : List String) (w : σ)
    (path : String) (data : Bytes)
    (h : Event.QueryWithData path data ∈ (GetCmdQueryCollectionSupply.RunE env args w).calls) :
    ∃ denom, args[0]? = some denom ∧ path = supplyPath (STOREKEY env) denom ∧
      env.MarshalJSON (NewQueryCollectionParams denom) = .ok data := by
  unfold GetCmdQueryCollectionSupply.RunE at h
  repeat' first | split at h | dsimp only at h
  all_goals simp_all

theorem denoms_query_mem {σ : Type} (env : Env σ) (args : List String) (w : σ)
    (path : String) (data : Bytes)
    (h : Event.QueryWithData path data ∈ (GetCmdQueryDenoms.RunE env args w).calls) :
    path = denomsPath (STOREKEY env) ∧ data = [] := by
  unfold GetCmdQueryDenoms.RunE at h
  repeat' first | split at h | dsimp only at h
  all_goals simp_all

theorem nft_query_mem {σ : Type} (env : Env σ) (args : List String) (w : σ)
    (path : String) (data : Bytes)
    (h : Event.QueryWithData path data ∈ (GetCmdQueryNFT.RunE env args w).calls) :
    ∃ denom id, args[0]? = some denom ∧ args[1]? = some id ∧
      path = nftPath (STOREKEY env) ∧
      env.MarshalJSON (NewQueryNFTParams denom id) = .ok data := by
  unfold GetCmdQueryNFT.RunE at h
  repeat' first | split at h | dsimp only at h
  all_goals simp_all

/-- A command run through its validator makes only calls its `RunE` makes. -/
theorem Execute_calls_subset {σ : Type} (c : Command σ) (args : List String) (w : σ)
    (ev : Event) (h : ev ∈ (c.Execute args w).calls) : ev ∈ (c.RunE args w).calls := by
  unfold Command.Execute at h
  split at h
  · simp at h
  · exact h

theorem Execute_calls_args {σ : Type} (c : Command σ) (args : List String) (w : σ)
    (ev : Event) (h : ev ∈ (c.Execute args w).calls) : c.Args args = .ok () := by
  unfold Command.Execute at h
  split at h
  · simp at h
  · assumption

theorem path_assoc (m x : String) :
    "custom/" ++ m ++ ("/" ++ x) = "custom/" ++ m ++ "/" ++ x :=
  (String.append_assoc _ _ _).symm

theorem supply_requests {σ : Type} (env : Env σ) (denom : String) (w : σ) (bz : Bytes)
    (hM : env.MarshalJSON (NewQueryCollectionParams denom) = .ok bz) :
    ((GetCmdQueryCollectionSupply env).Execute [denom] w).calls.filter Event.isQueryWithData
      = [.QueryWithData (supplyPath (STOREKEY env) denom) bz] := by
  have hx : (GetCmdQueryCollectionSupply env).Execute [denom] w
      = GetCmdQueryCollectionSupply.RunE env [denom] w := by
    simp [Command.Execute, GetCmdQueryCollectionSupply, ExactArgs]
  rw [hx]
  unfold GetCmdQueryCollectionSupply.RunE
  simp only [List.getElem?_cons_zero, hM]
  repeat' first | split | dsimp only
  all_goals simp [List.filter, Event.isQueryWithData]

theorem collection_requests {σ : Type} (env : Env σ) (denom : String) (w : σ) (bz : Bytes)
    (hM : env.MarshalJSON (NewQueryCollectionParams denom) = .ok bz) :
    ((GetCmdQueryCollection env).Execute [denom] w).calls.filter Event.isQueryWithData
      = [.QueryWithData (collectionPath (STOREKEY env)) bz] := by
  have hx : (GetCmdQueryCollection env).Execute [denom] w
      = GetCmdQueryCollection.RunE env [denom] w := by
    simp [Command.Execute, GetCmdQueryCollection, ExactArgs]
  rw [hx]
  unfold GetCmdQueryCollection.RunE
  simp only [List.getElem?_cons_zero, hM]
  repeat' first | split | dsimp only
  all_goals simp [List.filter, Event.isQueryWithData]

theorem nft_requests {σ : Type} (env : Env σ) (denom id : String) (w : σ) (bz : Bytes)
    (hM : env.MarshalJSON (NewQueryNFTParams denom id) = .ok bz) :
    ((GetCmdQueryNFT env).Execute [denom, id] w).calls.filter Event.isQueryWithData
      = [.QueryWithData (nftPath (STOREKEY env)) bz] := by
  have hx : (GetCmdQueryNFT env).Execute [denom, id] w
      = GetCmdQueryNFT.RunE env [denom, id] w := by
    simp [Command.Execute, GetCmdQueryNFT, ExactArgs]
  rw [hx]
  unfold GetCmdQueryNFT.RunE
  simp only [List.getElem?_cons_zero, List.getElem?_cons_succ, hM]
  repeat' first | split | dsimp only
  all_goals simp [List.filter, Event.isQueryWithData]

theorem denoms_requests {σ : Type} (env : Env σ) (w : σ) :
    ((GetCmdQueryDenoms env).Execute [] w).calls.filter Event.isQueryWithData
      = [.QueryWithData (denomsPath (STOREKEY env)) []] := by
  have hx : (GetCmdQueryDenoms env).Execute [] w = GetCmdQueryDenoms.RunE env [] w := by
    simp [Command.Execute, GetCmdQueryDenoms, ExactArgs]
  rw [hx]
  unfold GetCmdQueryDenoms.RunE
  repeat' first | split | dsimp only
  all_goals simp [List.filter, Event.isQueryWithData]

theorem owner_requests {σ : Type} (env : Env σ) (args : List String) (w : σ)
    (hlen : args.length = 1 ∨ args.length = 2) (address : AccAddress) (bz : Bytes)
    (ha : env.AccAddressFromBech32 (args.getD 0 "") = .ok address)
    (hM : env.MarshalJSON (NewQueryBalanceParams address (args.getD 1 "")) = .ok bz) :
    ((GetCmdQueryOwner env).Execute args w).calls.filter Event.isQueryWithData
      = [.QueryWithData (if args.getD 1 "" = "" then ownerPath (STOREKEY env)
          else ownerByDenomPath (STOREKEY env)) bz] := by
  have h0 : args[0]? = some (args.getD 0 "") := by
    match args, hlen with
    | [_], _ => rfl
    | [_, _], _ => rfl
  rw [owner_Execute_eq env args w hlen]
  unfold GetCmdQueryOwner.RunE
  rw [owner_filter_eq args hlen]
  generalize args.getD 1 "" = denom at hM
  simp only [h0, ha, hM]
  repeat' first | split | dsimp only
  all_goals simp [List.filter, Event.isQueryWithData]

/-- C3: each query submits to exactly `custom/` + module name + `/` followed
by the path of its intent: `supply/` + denom for the supply query,
`collection`, `denoms` and `nft` for the collection, denoms and token
queries, and `owner` or `ownerByDenom` for the owner query, chosen by whether
the filter is empty.  Every transport call a command makes, on any argument
list, has that path; and on an argument list of the command's shape, once
address parsing and parameter encoding succeed, the command's transport calls
are exactly one call, to that path, carrying the encoded parameters (no data
for the denoms query).  Apart from the supply path, the paths do not mention
the arguments beyond the emptiness of the owner filter. -/
theorem query_paths {σ : Type} (env : Env σ) (args : List String) (w : σ) :
    (∀ path data,
      (Event.QueryWithData path data
          ∈ ((GetCmdQueryCollectionSupply env).Execute args w).calls →
        path = "custom/" ++ env.ModuleName ++ "/" ++ "supply/" ++ args.getD 0 "") ∧
      (Event.QueryWithData path data ∈ ((GetCmdQueryOwner env).Execute args w).calls →
        path = "custom/" ++ env.ModuleName ++ "/"
          ++ (if args.getD 1 "" = "" then "owner" else "ownerByDenom")) ∧
      (Event.QueryWithData path data ∈ ((GetCmdQueryCollection env).Execute args w).calls →
        path = "custom/" ++ env.ModuleName ++ "/" ++ "collection") ∧
      (Event.QueryWithData path data ∈ ((GetCmdQueryDenoms env).Execute args w).calls →
        path = "custom/" ++ env.ModuleName ++ "/" ++ "denoms") ∧
      (Event.QueryWithData path data ∈ ((GetCmdQueryNFT env).Execute args w).calls →
        path = "custom/" ++ env.ModuleName ++ "/" ++ "nft")) ∧
    (∀ denom bz, args = [denom] →
      env.MarshalJSON (NewQueryCollectionParams denom) = .ok bz →
        ((GetCmdQueryCollectionSupply env).Execute args w).calls.filter Event.isQueryWithData
          = [.QueryWithData ("custom/" ++ env.ModuleName ++ "/" ++ "supply/" ++ denom) bz] ∧
        ((GetCmdQueryCollection env).Execute args w).calls.filter Event.isQueryWithData
          = [.QueryWithData ("custom/" ++ env.ModuleName ++ "/" ++ "collection") bz]) ∧
    (∀ address bz, args.length = 1 ∨ args.length = 2 →
      env.AccAddressFromBech32 (args.getD 0 "") = .ok address →
      env.MarshalJSON (NewQueryBalanceParams address (args.getD 1 "")) = .ok bz →
        ((GetCmdQueryOwner env).Execute args w).calls.filter Event.isQueryWithData
          = [.QueryWithData ("custom/" ++ env.ModuleName ++ "/"
              ++ (if args.getD 1 "" = "" then "owner" else "ownerByDenom")) bz]) ∧
    (args = [] →
      ((GetCmdQueryDenoms env).Execute args w).calls.filter Event.isQueryWithData
        = [.QueryWithData ("custom/" ++ env.ModuleName ++ "/" ++ "denoms") []]) ∧
    (∀ denom id bz, args = [denom, id] →
      env.MarshalJSON (NewQueryNFTParams denom id) = .ok bz →
        ((GetCmdQueryNFT env).Execute args w).calls.filter Event.isQueryWithData
          = [.QueryWithData ("custom/" ++ env.ModuleName ++ "/" ++ "nft") bz]) := by
  refine ⟨fun path data => ⟨fun h => ?_, fun h => ?_, fun h => ?_, fun h => ?_, fun h => ?_⟩,
    ?_, ?_, ?_, ?_⟩
  · obtain ⟨denom, h0, hp, -⟩ :=
      supply_query_mem env args w path data (Execute_calls_subset _ args w _ h)
    have hd : args.getD 0 "" = denom := by
      cases args with
      | nil => simp at h0
      | cons a t => simpa using h0
    rw [hp, hd, supplyPath_eq]; rfl
  · have hargs := Execute_calls_args _ args w _ h
    have hlen : args.length = 1 ∨ args.length = 2 := by
      simp only [GetCmdQueryOwner, RangeArgs] at hargs
      split at hargs
      · cases hargs
      · rename_i hc
        simp only [Bool.or_eq_true, decide_eq_true_eq, not_or, not_lt] at hc
        omega
    obtain ⟨arg0, address, -, -, -, hp⟩ :=
      owner_query_mem env args w path data (Execute_calls_subset _ args w _ h)
    rw [owner_filter_eq args hlen] at hp
    rw [hp]
    split
    · exact path_assoc _ _
    · exact path_assoc _ _
  · obtain ⟨denom, -, hp, -⟩ :=
      collection_query_mem env args w path data (Execute_calls_subset _ args w _ h)
    rw [hp]; exact path_assoc _ _
  · obtain ⟨hp, -⟩ :=
      denoms_query_mem env args w path data (Execute_calls_subset _ args w _ h)
    rw [hp]; exact path_assoc _ _
  · obtain ⟨denom, id, -, -, hp, -⟩ :=
      nft_query_mem env args w path data (Execute_calls_subset _ args w _ h)
    rw [hp]; exact path_assoc _ _
  · rintro denom bz rfl hM
    refine ⟨?_, ?_⟩
    · rw [supply_requests env denom w bz hM, supplyPath_eq]; rfl
    · rw [collection_requests env denom w bz hM]
      exact congrArg (fun p => [Event.QueryWithData p bz]) (path_assoc _ _)
  · intro address bz hlen ha hM
    rw [owner_requests env args w hlen address bz ha hM]
    refine congrArg (fun p => [Event.QueryWithData p bz]) ?_
    split
    · exact path_assoc _ _
    · exact path_assoc _ _
  · rintro rfl
    rw [denoms_requests env w]
    exact congrArg (fun p => [Event.QueryWithData p []]) (path_assoc _ _)
  · rintro denom id bz rfl hM
    rw [nft_requests env denom id w bz hM]
    exact congrArg (fun p => [Event.QueryWithData p bz]) (path_assoc _ _)

/-- Witness for C3 on the concrete environment: the one request of each
query, with its path. -/
theorem query_paths_witness :
    ((GetCmdQueryCollectionSupply demoEnv).Execute ["kitties"] demoNode).calls.filter
        Event.isQueryWithData
      = [.QueryWithData "custom/nft/supply/kitties" [1, 7]] ∧
    ((GetCmdQueryCollection demoEnv).Execute ["kitties"] demoNode).calls.filter
        Event.isQueryWithData
      = [.QueryWithData "custom/nft/collection" [1, 7]] ∧
    ((GetCmdQueryOwner demoEnv).Execute ["cosmos1abc"] demoNode).calls.filter
        Event.isQueryWithData
      = [.QueryWithData "custom/nft/owner" [2, 0, 97, 98, 99]] ∧
    ((GetCmdQueryOwner demoEnv).Execute ["cosmos1abc", "kitties"] demoNode).calls.filter
        Event.isQueryWithData
      = [.QueryWithData "custom/nft/ownerByDenom" [2, 7, 97, 98, 99]] ∧
    ((GetCmdQueryDenoms demoEnv).Execute [] demoNode).calls.filter Event.isQueryWithData
      = [.QueryWithData "custom/nft/denoms" []] ∧
    ((GetCmdQueryNFT demoEnv).Execute ["kitties", "abc"] demoNode).calls.filter
        Event.isQueryWithData
      = [.QueryWithData "custom/nft/nft" [3, 7, 3]] :=
  ⟨((query_paths demoEnv ["kitties"] demoNode).2.1 "kitties" [1, 7] rfl rfl).1,
   ((query_paths demoEnv ["kitties"] demoNode).2.1 "kitties" [1, 7] rfl rfl).2,
   (query_paths demoEnv ["cosmos1abc"] demoNode).2.2.1
      [97, 98, 99] [2, 0, 97, 98, 99] (Or.inl rfl) rfl rfl,
   (query_paths demoEnv ["cosmos1abc", "kitties"] demoNode).2.2.1
      [97, 98, 99] [2, 7, 97, 98, 99] (Or.inr rfl) rfl rfl,
   (query_paths demoEnv [] demoNode).2.2.2.1 rfl,
   (query_paths demoEnv ["kitties", "abc"] demoNode).2.2.2.2 "kitties" "abc" [3, 7, 3]
      rfl rfl⟩

/-- C4: the paths of the six intents are pairwise different strings, for every
module name and every denomination (the empty one and those containing a
slash included), and the supply path determines its denomination. -/
theorem paths_pairwise_distinct (m d d1 d2 : String) :
    [supplyPath m d, ownerPath m, ownerByDenomPath m, collectionPath m,
      denomsPath m, nftPath m].Pairwise (fun p q => p ≠ q) ∧
    (supplyPath m d1 = supplyPath m d2 ↔ d1 = d2) :=
  ⟨paths_nodup m d, fun h => supplyPath_injective m d1 d2 h, fun h => by rw [h]⟩

end Nft

namespace Nft

/-! ## One transport call at most -/

theorem transportCalls_append (xs ys : List Event) :
    transportCalls (xs ++ ys) = transportCalls xs + transportCalls ys := by
  simp [transportCalls, List.countP_append]

theorem transportCalls_query_cons (path : String) (data : Bytes) (xs : List Event) :
    transportCalls (Event.QueryWithData path data :: xs) = transportCalls xs + 1 := by
  simp [transportCalls, Event.isQueryWithData]

theorem supply_transportCalls_le {σ : Type} (env : Env σ) (args : List String) (w : σ) :
    transportCalls (GetCmdQueryCollectionSupply.RunE env args w).calls ≤ 1 := by
  unfold GetCmdQueryCollectionSupply.RunE
  repeat' first | split | dsimp only
  all_goals simp [transportCalls, Event.isQueryWithData]

theorem owner_transportCalls_le {σ : Type} (env : Env σ) (args : List String) (w : σ) :
    transportCalls (GetCmdQueryOwner.RunE env args w).calls ≤ 1 := by
  unfold GetCmdQueryOwner.RunE
  repeat' first | split | dsimp only
  all_goals simp [transportCalls, Event.isQueryWithData]

theorem collection_transportCalls_le {σ : Type} (env : Env σ) (args : List String) (w : σ) :
    transportCalls (GetCmdQueryCollection.RunE env args w).calls ≤ 1 := by
  unfold GetCmdQueryCollection.RunE
  repeat' first | split | dsimp only
  all_goals simp [transportCalls, Event.isQueryWithData]

theorem denoms_transportCalls_eq {σ : Type} (env : Env σ) (args : List String) (w : σ) :
    transportCalls (GetCmdQueryDenoms.RunE env args w).calls = 1 := by
  unfold GetCmdQueryDenoms.RunE
  repeat' first | split | dsimp only
  all_goals simp [transportCalls, Event.isQueryWithData]

theorem nft_transportCalls_le {σ : Type} (env : Env σ) (args : List String) (w : σ) :
    transportCalls (GetCmdQueryNFT.RunE env args w).calls ≤ 1 := by
  unfold GetCmdQueryNFT.RunE
  repeat' first | split | dsimp only
  all_goals simp [transportCalls, Event.isQueryWithData]

theorem RunE_transportCalls_le {σ : Type} (env : Env σ) (c : Command σ)
    (hc : c ∈ GetQueryCmd env) (args : List String) (w : σ) :
    transportCalls (c.RunE args w).calls ≤ 1 := by
  simp only [GetQueryCmd, List.mem_cons, List.mem_singleton, List.not_mem_nil, or_false] at hc
  rcases hc with rfl | rfl | rfl | rfl | rfl
  · exact supply_transportCalls_le env args w
  · exact owner_transportCalls_le env args w
  · exact collection_transportCalls_le env args w
  · exact (denoms_transportCalls_eq env args w).le
  · exact nft_transportCalls_le env args w

theorem Execute_transportCalls_le {σ : Type} (c : Command σ) (args : List String) (w : σ) :
    transportCalls (c.Execute args w).calls ≤ transportCalls (c.RunE args w).calls := by
  unfold Command.Execute
  split
  · simp [transportCalls]
  · exact le_rfl

theorem supply_transportCalls_eq {σ : Type} (env : Env σ) (denom : String) (w : σ)
    (bz : Bytes) (hbz : env.MarshalJSON (NewQueryCollectionParams denom) = .ok bz) :
    transportCalls ((GetCmdQueryCollectionSupply env).Execute [denom] w).calls = 1 := by
  simp only [Command.Execute, GetCmdQueryCollectionSupply, ExactArgs,
    GetCmdQueryCollectionSupply.RunE]
  simp only [List.length_singleton, bne_self_eq_false, Bool.false_eq_true, ↓reduceIte,
    List.getElem?_cons_zero, hbz]
  repeat' first | split | dsimp only
  all_goals simp [transportCalls, Event.isQueryWithData]

theorem collection_transportCalls_eq {σ : Type} (env : Env σ) (denom : String) (w : σ)
    (bz : Bytes) (hbz : env.MarshalJSON (NewQueryCollectionParams denom) = .ok bz) :
    transportCalls ((GetCmdQueryCollection env).Execute [denom] w).calls = 1 := by
  simp only [Command.Execute, GetCmdQueryCollection, ExactArgs, GetCmdQueryCollection.RunE]
  simp only [List.length_singleton, bne_self_eq_false, Bool.false_eq_true, ↓reduceIte,
    List.getElem?_cons_zero, hbz]
  repeat' first | split | dsimp only
  all_goals simp [transportCalls, Event.isQueryWithData]

theorem nft_transportCalls_eq {σ : Type} (env : Env σ) (denom id : String) (w : σ)
    (bz : Bytes) (hbz : env.MarshalJSON (NewQueryNFTParams denom id) = .ok bz) :
    transportCalls ((GetCmdQueryNFT env).Execute [denom, id] w).calls = 1 := by
  have hx : (GetCmdQueryNFT env).Execute [denom, id] w
      = GetCmdQueryNFT.RunE env [denom, id] w := by
    simp [Command.Execute, GetCmdQueryNFT, ExactArgs]
  rw [hx]
  unfold GetCmdQueryNFT.RunE
  simp only [List.getElem?_cons_zero, List.getElem?_cons_succ, hbz]
  repeat' first | split | dsimp only
  all_goals simp [transportCalls, Event.isQueryWithData]

theorem owner_transportCalls_eq {σ : Type} (env : Env σ) (args : List String) (w : σ)
    (hlen : args.length = 1 ∨ args.length = 2) (address : AccAddress) (bz : Bytes)
    (ha : env.AccAddressFromBech32 (args.getD 0 "") = .ok address)
    (hbz : env.MarshalJSON (NewQueryBalanceParams address (args.getD 1 "")) = .ok bz) :
    transportCalls ((GetCmdQueryOwner env).Execute args w).calls = 1 := by
  have h0 : args[0]? = some (args.getD 0 "") := by
    match args, hlen with
    | [_], _ => rfl
    | [_, _], _ => rfl
  rw [owner_Execute_eq env args w hlen]
  unfold GetCmdQueryOwner.RunE
  rw [owner_filter_eq args hlen]
  simp only [h0, ha, hbz]
  repeat' first | split | dsimp only
  all_goals simp [transportCalls, Event.isQueryWithData]

theorem denoms_Execute_transportCalls_eq {σ : Type} (env : Env σ) (w : σ) :
    transportCalls ((GetCmdQueryDenoms env).Execute [] w).calls = 1 := by
  have hx : (GetCmdQueryDenoms env).Execute [] w = GetCmdQueryDenoms.RunE env [] w := by
    simp [Command.Execute, GetCmdQueryDenoms, ExactArgs]
  rw [hx]
  exact denoms_transportCalls_eq env [] w

/-- C5: no retries.  For each of the five commands and every argument list
and world, one invocation makes at most one transport call, whether run
through the argument validator or not and whatever the collaborators return,
and no transport call follows a transport call; it makes exactly one when the
arguments have the command's shape and address parsing and parameter encoding
succeed (the denoms query encodes nothing and always makes one). -/
theorem no_retries {σ : Type} (env : Env σ) (args : List String) (w : σ) :
    (∀ c ∈ GetQueryCmd env,
      transportCalls (c.RunE args w).calls ≤ 1 ∧
      transportCalls (c.Execute args w).calls ≤ 1 ∧
      ∀ pre post path data,
        (c.Execute args w).calls = pre ++ Event.QueryWithData path data :: post →
          transportCalls post = 0) ∧
    (∀ denom bz, args = [denom] →
      env.MarshalJSON (NewQueryCollectionParams denom) = .ok bz →
        transportCalls ((GetCmdQueryCollectionSupply env).Execute args w).calls = 1 ∧
        transportCalls ((GetCmdQueryCollection env).Execute args w).calls = 1) ∧
    (∀ address bz, args.length = 1 ∨ args.length = 2 →
      env.AccAddressFromBech32 (args.getD 0 "") = .ok address →
      env.MarshalJSON (NewQueryBalanceParams address (args.getD 1 "")) = .ok bz →
        transportCalls ((GetCmdQueryOwner env).Execute args w).calls = 1) ∧
    (args = [] → transportCalls ((GetCmdQueryDenoms env).Execute args w).calls = 1) ∧
    (∀ denom id bz, args = [denom, id] →
      env.MarshalJSON (NewQueryNFTParams denom id) = .ok bz →
        transportCalls ((GetCmdQueryNFT env).Execute args w).calls = 1) := by
  refine ⟨fun c hc => ?_, ?_, ?_, ?_, ?_⟩
  · have h1 := RunE_transportCalls_le env c hc args w
    have h2 := Execute_transportCalls_le c args w
    refine ⟨h1, le_trans h2 h1, fun pre post path data hsplit => ?_⟩
    have h3 := le_trans h2 h1
    rw [hsplit, transportCalls_append, transportCalls_query_cons] at h3
    omega
  · rintro denom bz rfl hbz
    exact ⟨supply_transportCalls_eq env denom w bz hbz,
      collection_transportCalls_eq env denom w bz hbz⟩
  · intro address bz hlen ha hbz
    exact owner_transportCalls_eq env args w hlen address bz ha hbz
  · rintro rfl
    exact denoms_Execute_transportCalls_eq env w
  · rintro denom id bz rfl hbz
    exact nft_transportCalls_eq env denom id w bz hbz

/-- Witness for C5 on the concrete environment: a supply query whose
submission fails and a token query whose response fails to decode make one
transport call each, and a token query whose encoding fails makes none. -/
theorem no_retries_witness :
    transportCalls ((GetCmdQueryCollectionSupply demoEnv).Execute ["down"] demoNode).calls
      = 1 ∧
    transportCalls ((GetCmdQueryNFT demoEnv).Execute ["kitties", "abc"] (brokenNode [0])).calls
      = 1 ∧
    transportCalls ((GetCmdQueryNFT demoEnv).Execute ["kitties", ""] demoNode).calls ≤ 1 ∧
    ((GetCmdQueryNFT demoEnv).Execute ["kitties", ""] demoNode).calls
      = [.MarshalJSON (.NFTParams "kitties" "")] :=
  ⟨((no_retries demoEnv ["down"] demoNode).2.1 "down" [1, 4] rfl rfl).1,
   (no_retries demoEnv ["kitties", "abc"] (brokenNode [0])).2.2.2.2
      "kitties" "abc" [3, 7, 3] rfl rfl,
   ((no_retries demoEnv ["kitties", ""] demoNode).1 (GetCmdQueryNFT demoEnv)
      (by simp [GetQueryCmd])).2.1,
   by decide⟩

end Nft

namespace Nft

/-! ## Fail-fast propagation -/

theorem supply_Execute_eq {σ : Type} (env : Env σ) (denom : String) (w : σ) :
    (GetCmdQueryCollectionSupply env).Execute [denom] w
      = GetCmdQueryCollectionSupply.RunE env [denom] w := by
  simp [Command.Execute, GetCmdQueryCollectionSupply, ExactArgs]

theorem collection_Execute_eq {σ : Type} (env : Env σ) (denom : String) (w : σ) :
    (GetCmdQueryCollection env).Execute [denom] w
      = GetCmdQueryCollection.RunE env [denom] w := by
  simp [Command.Execute, GetCmdQueryCollection, ExactArgs]

theorem nft_Execute_eq {σ : Type} (env : Env σ) (denom id : String) (w : σ) :
    (GetCmdQueryNFT env).Execute [denom, id] w = GetCmdQueryNFT.RunE env [denom, id] w := by
  simp [Command.Execute, GetCmdQueryNFT, ExactArgs]

theorem denoms_Execute_eq {σ : Type} (env : Env σ) (w : σ) :
    (GetCmdQueryDenoms env).Execute [] w = GetCmdQueryDenoms.RunE env [] w := by
  simp [Command.Execute, GetCmdQueryDenoms, ExactArgs]

theorem supply_ret {σ : Type} (env : Env σ) (denom : String) (w : σ) :
    (GetCmdQueryCollectionSupply.RunE env [denom] w).ret
      = .ofExcept (querySteps env (env.MarshalJSON (NewQueryCollectionParams denom))
          (supplyPath (STOREKEY env) denom) env.UnmarshalNFT .nft w) := by
  unfold GetCmdQueryCollectionSupply.RunE querySteps
  simp only [List.getElem?_cons_zero]
  rcases hM : env.MarshalJSON (NewQueryCollectionParams denom) with e | bz
  · rfl
  · rcases hQ : env.QueryWithData (supplyPath (STOREKEY env) denom) bz w with ⟨r, w1⟩
    rcases r with e | res
    · simp [hQ, Outcome.ofExcept, bind, Except.bind]
    · rcases hU : env.UnmarshalNFT res with e | out
      · simp [hQ, hU, Outcome.ofExcept, bind, Except.bind]
      · simp [hQ, hU, bind, Except.bind]

theorem collection_ret {σ : Type} (env : Env σ) (denom : String) (w : σ) :
    (GetCmdQueryCollection.RunE env [denom] w).ret
      = .ofExcept (querySteps env (env.MarshalJSON (NewQueryCollectionParams denom))
          (collectionPath (STOREKEY env)) env.UnmarshalCollection .collection w) := by
  unfold GetCmdQueryCollection.RunE querySteps
  simp only [List.getElem?_cons_zero]
  rcases hM : env.MarshalJSON (NewQueryCollectionParams denom) with e | bz
  · rfl
  · rcases hQ : env.QueryWithData (collectionPath (STOREKEY env)) bz w with ⟨r, w1⟩
    rcases r with e | res
    · simp [hQ, Outcome.ofExcept, bind, Except.bind]
    · rcases hU : env.UnmarshalCollection res with e | out
      · simp [hQ, hU, Outcome.ofExcept, bind, Except.bind]
      · simp [hQ, hU, bind, Except.bind]

theorem nft_ret {σ : Type} (env : Env σ) (denom id : String) (w : σ) :
    (GetCmdQueryNFT.RunE env [denom, id] w).ret
      = .ofExcept (querySteps env (env.MarshalJSON (NewQueryNFTParams denom id))
          (nftPath (STOREKEY env)) env.UnmarshalNFT .nft w) := by
  unfold GetCmdQueryNFT.RunE querySteps
  simp only [List.getElem?_cons_zero, List.getElem?_cons_succ]
  rcases hM : env.MarshalJSON (NewQueryNFTParams denom id) with e | bz
  · rfl
  · rcases hQ : env.QueryWithData (nftPath (STOREKEY env)) bz w with ⟨r, w1⟩
    rcases r with e | res
    · simp [hQ, Outcome.ofExcept, bind, Except.bind]
    · rcases hU : env.UnmarshalNFT res with e | out
      · simp [hQ, hU, Outcome.ofExcept, bind, Except.bind]
      · simp [hQ, hU, bind, Except.bind]

theorem owner_cons_filter (arg0 : String) (rest : List String) (hr : rest.length ≤ 1) :
    (if (arg0 :: rest).length = 2 then (arg0 :: rest).getD 1 "" else "") = rest.getD 0 "" := by
  match rest, hr with
  | [], _ => rfl
  | [_], _ => rfl

theorem owner_ret {σ : Type} (env : Env σ) (arg0 : String) (rest : List String) (w : σ)
    (hr : rest.length ≤ 1) (address : AccAddress)
    (ha : env.AccAddressFromBech32 arg0 = .ok address) :
    (GetCmdQueryOwner.RunE env (arg0 :: rest) w).ret
      = .ofExcept (querySteps env
          (env.MarshalJSON (NewQueryBalanceParams address (rest.getD 0 "")))
          (ownerQueryPath env (rest.getD 0 "")) env.UnmarshalOwner .owner w) := by
  unfold GetCmdQueryOwner.RunE querySteps ownerQueryPath
  rw [owner_cons_filter arg0 rest hr]
  generalize rest.getD 0 "" = denom
  simp only [List.getElem?_cons_zero, ha]
  rcases hM : env.MarshalJSON (NewQueryBalanceParams address denom) with e | bz
  · rfl
  · dsimp only
    rcases hQ : env.QueryWithData (if denom = "" then ownerPath (STOREKEY env)
        else ownerByDenomPath (STOREKEY env)) bz w with ⟨r, w1⟩
    rcases r with e | res
    · simp [hQ, Outcome.ofExcept, bind, Except.bind]
    · rcases hU : env.UnmarshalOwner res with e | out
      · simp [hQ, hU, Outcome.ofExcept, bind, Except.bind]
      · simp [hQ, hU, bind, Except.bind]

/-- C6: fail-fast propagation in the supply, owner, collection and token
queries.  If parameter encoding fails, the command returns the encoder's
error, the world is untouched and the transport is not called; if encoding
succeeds and the transport fails, the command returns the transport's error
unchanged and neither decodes nor renders; and in every case the value
returned is that of the composition encode, submit, decode, render: success
when every step succeeds, otherwise the error of the first step that
fails. -/
theorem fail_fast {σ : Type} (env : Env σ) (w : σ) :
    (∀ denom,
      (∀ e, env.MarshalJSON (NewQueryCollectionParams denom) = .error e →
        (GetCmdQueryCollectionSupply env).Execute [denom] w
          = ⟨.err e, w, [.MarshalJSON (NewQueryCollectionParams denom)]⟩) ∧
      (∀ bz e w1, env.MarshalJSON (NewQueryCollectionParams denom) = .ok bz →
        env.QueryWithData (supplyPath (STOREKEY env) denom) bz w = (.error e, w1) →
        (GetCmdQueryCollectionSupply env).Execute [denom] w
          = ⟨.err e, w1, [.MarshalJSON (NewQueryCollectionParams denom),
              .QueryWithData (supplyPath (STOREKEY env) denom) bz]⟩) ∧
      ((GetCmdQueryCollectionSupply env).Execute [denom] w).ret
        = .ofExcept (querySteps env (env.MarshalJSON (NewQueryCollectionParams denom))
            (supplyPath (STOREKEY env) denom) env.UnmarshalNFT .nft w)) ∧
    (∀ arg0 rest address, rest.length ≤ 1 → env.AccAddressFromBech32 arg0 = .ok address →
      (∀ e, env.MarshalJSON (NewQueryBalanceParams address (rest.getD 0 "")) = .error e →
        (GetCmdQueryOwner env).Execute (arg0 :: rest) w
          = ⟨.err e, w, [.AccAddressFromBech32 arg0,
              .MarshalJSON (NewQueryBalanceParams address (rest.getD 0 ""))]⟩) ∧
      (∀ bz e w1, env.MarshalJSON (NewQueryBalanceParams address (rest.getD 0 "")) = .ok bz →
        env.QueryWithData (ownerQueryPath env (rest.getD 0 "")) bz w = (.error e, w1) →
        (GetCmdQueryOwner env).Execute (arg0 :: rest) w
          = ⟨.err e, w1, [.AccAddressFromBech32 arg0,
              .MarshalJSON (NewQueryBalanceParams address (rest.getD 0 "")),
              .QueryWithData (ownerQueryPath env (rest.getD 0 "")) bz]⟩) ∧
      ((GetCmdQueryOwner env).Execute (arg0 :: rest) w).ret
        = .ofExcept (querySteps env
            (env.MarshalJSON (NewQueryBalanceParams address (rest.getD 0 "")))
            (ownerQueryPath env (rest.getD 0 "")) env.UnmarshalOwner .owner w)) ∧
    (∀ denom,
      (∀ e, env.MarshalJSON (NewQueryCollectionParams denom) = .error e →
        (GetCmdQueryCollection env).Execute [denom] w
          = ⟨.err e, w, [.MarshalJSON (NewQueryCollectionParams denom)]⟩) ∧
      (∀ bz e w1, env.MarshalJSON (NewQueryCollectionParams denom) = .ok bz →
        env.QueryWithData (collectionPath (STOREKEY env)) bz w = (.error e, w1) →
        (GetCmdQueryCollection env).Execute [denom] w
          = ⟨.err e, w1, [.MarshalJSON (NewQueryCollectionParams denom),
              .QueryWithData (collectionPath (STOREKEY env)) bz]⟩) ∧
      ((GetCmdQueryCollection env).Execute [denom] w).ret
        = .ofExcept (querySteps env (env.MarshalJSON (NewQueryCollectionParams denom))
            (collectionPath (STOREKEY env)) env.UnmarshalCollection .collection w)) ∧
    (∀ denom id,
      (∀ e, env.MarshalJSON (NewQueryNFTParams denom id) = .error e →
        (GetCmdQueryNFT env).Execute [denom, id] w
          = ⟨.err e, w, [.MarshalJSON (NewQueryNFTParams denom id)]⟩) ∧
      (∀ bz e w1, env.MarshalJSON (NewQueryNFTParams denom id) = .ok bz →
        env.QueryWithData (nftPath (STOREKEY env)) bz w = (.error e, w1) →
        (GetCmdQueryNFT env).Execute [denom, id] w
          = ⟨.err e, w1, [.MarshalJSON (NewQueryNFTParams denom id),
              .QueryWithData (nftPath (STOREKEY env)) bz]⟩) ∧
      ((GetCmdQueryNFT env).Execute [denom, id] w).ret
        = .ofExcept (querySteps env (env.MarshalJSON (NewQueryNFTParams denom id))
            (nftPath (STOREKEY env)) env.UnmarshalNFT .nft w)) := by
  refine ⟨fun denom => ?_, fun arg0 rest address hr ha => ?_, fun denom => ?_,
    fun denom id => ?_⟩
  · rw [supply_Execute_eq]
    refine ⟨fun e hM => ?_, fun bz e w1 hM hQ => ?_, supply_ret env denom w⟩
    · simp [GetCmdQueryCollectionSupply.RunE, hM]
    · simp [GetCmdQueryCollectionSupply.RunE, hM, hQ]
  · rw [owner_Execute_eq env (arg0 :: rest) w (by simp only [List.length_cons]; omega)]
    refine ⟨fun e hM => ?_, fun bz e w1 hM hQ => ?_, owner_ret env arg0 rest w hr address ha⟩
    · unfold GetCmdQueryOwner.RunE
      rw [owner_cons_filter arg0 rest hr]
      generalize rest.getD 0 "" = denom at hM
      simp [ha, hM]
    · unfold GetCmdQueryOwner.RunE
      rw [owner_cons_filter arg0 rest hr]
      unfold ownerQueryPath at hQ ⊢
      generalize rest.getD 0 "" = denom at hM hQ
      simp [ha, hM, hQ]
  · rw [collection_Execute_eq]
    refine ⟨fun e hM => ?_, fun bz e w1 hM hQ => ?_, collection_ret env denom w⟩
    · simp [GetCmdQueryCollection.RunE, hM]
    · simp [GetCmdQueryCollection.RunE, hM, hQ]
  · rw [nft_Execute_eq]
    refine ⟨fun e hM => ?_, fun bz e w1 hM hQ => ?_, nft_ret env denom id w⟩
    · simp [GetCmdQueryNFT.RunE, hM]
    · simp [GetCmdQueryNFT.RunE, hM, hQ]

/-- Witness for C6 on the concrete environment: a token query whose
parameters fail to encode stops before the transport, and a supply query
whose submission fails returns the transport's error after one call. -/
theorem fail_fast_witness :
    (GetCmdQueryNFT demoEnv).Execute ["kitties", ""] demoNode
      = ⟨.err ⟨"cannot encode empty token ID"⟩, demoNode,
          [.MarshalJSON (.NFTParams "kitties" "")]⟩ ∧
    (GetCmdQueryCollectionSupply demoEnv).Execute ["down"] demoNode
      = ⟨.err ⟨"node unreachable"⟩, ⟨1, coinsJSON, none⟩,
          [.MarshalJSON (.CollectionParams "down"),
           .QueryWithData "custom/nft/supply/down" [1, 4]]⟩ :=
  ⟨((fail_fast demoEnv demoNode).2.2.2 "kitties" "").1 ⟨"cannot encode empty token ID"⟩ rfl,
   ((fail_fast demoEnv demoNode).1 "down").2.1 [1, 4] ⟨"node unreachable"⟩
      ⟨1, coinsJSON, none⟩ rfl rfl⟩

end Nft


namespace Nft

/-! ## Decoding failures -/

/-- Amended C7: when the response fails to decode, each of the five commands
returns exactly the decoder's error, unchanged (nothing about the response's
length or the expected shape is added to it), the decode is its last call and
the renderer is not invoked. -/
theorem decode_error_verbatim {σ : Type} (env : Env σ) (w w1 : σ) (res : Bytes)
    (e : GoError) :
    (∀ denom bz, env.MarshalJSON (NewQueryCollectionParams denom) = .ok bz →
      env.QueryWithData (supplyPath (STOREKEY env) denom) bz w = (.ok res, w1) →
      env.UnmarshalNFT res = .error e →
        (GetCmdQueryCollectionSupply env).Execute [denom] w
          = ⟨.err e, w1, [.MarshalJSON (NewQueryCollectionParams denom),
              .QueryWithData (supplyPath (STOREKEY env) denom) bz,
              .UnmarshalJSON .NFT res]⟩) ∧
    (∀ arg0 rest address bz, rest.length ≤ 1 →
      env.AccAddressFromBech32 arg0 = .ok address →
      env.MarshalJSON (NewQueryBalanceParams address (rest.getD 0 "")) = .ok bz →
      env.QueryWithData (ownerQueryPath env (rest.getD 0 "")) bz w = (.ok res, w1) →
      env.UnmarshalOwner res = .error e →
        (GetCmdQueryOwner env).Execute (arg0 :: rest) w
          = ⟨.err e, w1, [.AccAddressFromBech32 arg0,
              .MarshalJSON (NewQueryBalanceParams address (rest.getD 0 "")),
              .QueryWithData (ownerQueryPath env (rest.getD 0 "")) bz,
              .UnmarshalJSON .Owner res]⟩) ∧
    (∀ denom bz, env.MarshalJSON (NewQueryCollectionParams denom) = .ok bz →
      env.QueryWithData (collectionPath (STOREKEY env)) bz w = (.ok res, w1) →
      env.UnmarshalCollection res = .error e →
        (GetCmdQueryCollection env).Execute [denom] w
          = ⟨.err e, w1, [.MarshalJSON (NewQueryCollectionParams denom),
              .QueryWithData (collectionPath (STOREKEY env)) bz,
              .UnmarshalJSON .Collection res]⟩) ∧
    (env.QueryWithData (denomsPath (STOREKEY env)) [] w = (.ok res, w1) →
      env.UnmarshalSortedStringArray res = .error e →
        (GetCmdQueryDenoms env).Execute [] w
          = ⟨.err e, w1, [.QueryWithData (denomsPath (STOREKEY env)) [],
              .UnmarshalJSON .SortedStringArray res]⟩) ∧
    (∀ denom id bz, env.MarshalJSON (NewQueryNFTParams denom id) = .ok bz →
      env.QueryWithData (nftPath (STOREKEY env)) bz w = (.ok res, w1) →
      env.UnmarshalNFT res = .error e →
        (GetCmdQueryNFT env).Execute [denom, id] w
          = ⟨.err e, w1, [.MarshalJSON (NewQueryNFTParams denom id),
              .QueryWithData (nftPath (STOREKEY env)) bz,
              .UnmarshalJSON .NFT res]⟩) := by
  refine ⟨fun denom bz hM hQ hU => ?_, fun arg0 rest address bz hr ha hM hQ hU => ?_,
    fun denom bz hM hQ hU => ?_, fun hQ hU => ?_, fun denom id bz hM hQ hU => ?_⟩
  · rw [supply_Execute_eq]
    simp [GetCmdQueryCollectionSupply.RunE, hM, hQ, hU]
  · rw [owner_Execute_eq env (arg0 :: rest) w (by simp only [List.length_cons]; omega)]
    unfold GetCmdQueryOwner.RunE
    rw [owner_cons_filter arg0 rest hr]
    unfold ownerQueryPath at hQ ⊢
    generalize rest.getD 0 "" = denom at hM hQ
    simp [ha, hM, hQ, hU]
  · rw [collection_Execute_eq]
    simp [GetCmdQueryCollection.RunE, hM, hQ, hU]
  · rw [denoms_Execute_eq]
    simp [GetCmdQueryDenoms.RunE, hQ, hU]
  · rw [nft_Execute_eq]
    simp [GetCmdQueryNFT.RunE, hM, hQ, hU]

/-- Witness for the amended C7: a token query answered with one zero byte. -/
theorem decode_error_verbatim_witness :
    (GetCmdQueryNFT demoEnv).Execute ["kitties", "abc"] (brokenNode [0])
      = ⟨.err ⟨"unexpected end of JSON input"⟩, ⟨1, [], some [0]⟩,
          [.MarshalJSON (.NFTParams "kitties" "abc"),
           .QueryWithData "custom/nft/nft" [3, 7, 3],
           .UnmarshalJSON .NFT [0]]⟩ :=
  (decode_error_verbatim demoEnv (brokenNode [0]) ⟨1, [], some [0]⟩ [0]
    ⟨"unexpected end of JSON input"⟩).2.2.2.2 "kitties" "abc" [3, 7, 3] rfl rfl rfl

/-- Counterexample to C7 as stated: on the concrete environment the token
query returns one and the same error for a response of one byte and for a
response of two bytes, and the collection query returns that same error for
its own shape; so there is no way to read the response's length (or the
expected shape's name) off the error a command returns after a failed
decode. -/
theorem decode_error_carries_no_length :
    ((GetCmdQueryNFT demoEnv).Execute ["kitties", "abc"] (brokenNode [0])).ret
      = .err ⟨"unexpected end of JSON input"⟩ ∧
    ((GetCmdQueryNFT demoEnv).Execute ["kitties", "abc"] (brokenNode [0, 0])).ret
      = .err ⟨"unexpected end of JSON input"⟩ ∧
    ((GetCmdQueryCollection demoEnv).Execute ["kitties"] (brokenNode [0])).ret
      = .err ⟨"unexpected end of JSON input"⟩ ∧
    ¬ ∃ (byteLen : GoError → Nat) (shapeName : GoError → String),
      ∀ c ∈ GetQueryCmd demoEnv, ∀ (args : List String) (w : DemoNode) (shape : Shape)
        (res : Bytes) (e : GoError),
        (c.Execute args w).calls.getLast? = some (.UnmarshalJSON shape res) →
        (c.Execute args w).ret = .err e →
          byteLen e = res.length ∧ shapeName e = shape.name := by
  refine ⟨by decide, by decide, by decide, ?_⟩
  rintro ⟨byteLen, shapeName, h⟩
  have hmem : GetCmdQueryNFT demoEnv ∈ GetQueryCmd demoEnv := by simp [GetQueryCmd]
  have h1 := h _ hmem ["kitties", "abc"] (brokenNode [0]) .NFT [0]
    ⟨"unexpected end of JSON input"⟩ (by decide) (by decide)
  have h2 := h _ hmem ["kitties", "abc"] (brokenNode [0, 0]) .NFT [0, 0]
    ⟨"unexpected end of JSON input"⟩ (by decide) (by decide)
  have h3 := h1.1.symm.trans h2.1
  simp at h3

end Nft

namespace Nft

/-! ## The denoms query -/

/-- C8: the denoms query hands the renderer a sorted array without
duplicates.  For every response the transport returns and the decoder
accepts, the command makes exactly the calls submit, decode, render; the one
value it renders is the decoded `SortedStringArray`, unchanged, which is
sorted and has no repeated element; and when the decoded array is empty, the
empty array is what is rendered, with the command returning the renderer's
result (no error arises before rendering). -/
theorem denoms_renders_sorted {σ : Type} (env : Env σ) (w w1 : σ) (res : Bytes)
    (out : SortedStringArray)
    (hQ : env.QueryWithData (denomsPath (STOREKEY env)) [] w = (.ok res, w1))
    (hU : env.UnmarshalSortedStringArray res = .ok out) :
    (GetCmdQueryDenoms env).Execute [] w
      = ⟨.ofExcept (env.PrintOutput (.denoms out)), w1,
          [.QueryWithData (denomsPath (STOREKEY env)) [],
           .UnmarshalJSON .SortedStringArray res,
           .PrintOutput (.denoms out)]⟩ ∧
    (∀ rendered,
      Event.PrintOutput rendered ∈ ((GetCmdQueryDenoms env).Execute [] w).calls ↔
        rendered = .denoms out) ∧
    (∀ l : SortedStringArray,
      Event.PrintOutput (.denoms l) ∈ ((GetCmdQueryDenoms env).Execute [] w).calls →
        l.val = out.val ∧ l.val.Sorted (· ≤ ·) ∧ l.val.Nodup) ∧
    (out.val = [] →
      (∀ l : SortedStringArray,
        Event.PrintOutput (.denoms l) ∈ ((GetCmdQueryDenoms env).Execute [] w).calls →
          l.val = []) ∧
      (∀ e, ((GetCmdQueryDenoms env).Execute [] w).ret = .err e →
        env.PrintOutput (.denoms out) = .error e) ∧
      (env.PrintOutput (.denoms out) = .ok () →
        ((GetCmdQueryDenoms env).Execute [] w).ret = .nil)) := by
  have hrun : (GetCmdQueryDenoms env).Execute [] w
      = ⟨.ofExcept (env.PrintOutput (.denoms out)), w1,
          [.QueryWithData (denomsPath (STOREKEY env)) [],
           .UnmarshalJSON .SortedStringArray res,
           .PrintOutput (.denoms out)]⟩ := by
    rw [denoms_Execute_eq]
    simp [GetCmdQueryDenoms.RunE, hQ, hU]
  have hmem : ∀ rendered,
      Event.PrintOutput rendered ∈ ((GetCmdQueryDenoms env).Execute [] w).calls ↔
        rendered = .denoms out := by
    intro rendered
    rw [hrun]
    simp
  have hl : ∀ l : SortedStringArray,
      Event.PrintOutput (.denoms l) ∈ ((GetCmdQueryDenoms env).Execute [] w).calls →
        l = out := by
    intro l h
    have := (hmem _).1 h
    exact Output.denoms.inj this
  refine ⟨hrun, hmem, fun l h => ?_, fun hempty => ⟨fun l h => ?_, fun e he => ?_, fun hp => ?_⟩⟩
  · exact ⟨by rw [hl l h], l.property.1, l.property.2⟩
  · rw [hl l h, hempty]
  · rw [hrun] at he
    rcases hP : env.PrintOutput (.denoms out) with e' | u
    · rw [hP] at he
      simp only [Outcome.ofExcept, Outcome.err.injEq] at he
      rw [he]
    · rw [hP] at he
      simp [Outcome.ofExcept] at he
  · rw [hrun]
    simp [hp, Outcome.ofExcept]

/-- Witness for C8 on the concrete environment: the node holding `b-coins`
and `a-coins` has `["a-coins", "b-coins"]` rendered, and the node holding no
collection has the empty array rendered; both queries return `nil`. -/
theorem denoms_renders_sorted_witness :
    (∃ l : SortedStringArray, l.val = ["a-coins", "b-coins"] ∧
      (GetCmdQueryDenoms demoEnv).Execute [] demoNode
        = ⟨.nil, ⟨1, coinsJSON, none⟩,
            [.QueryWithData "custom/nft/denoms" [],
             .UnmarshalJSON .SortedStringArray coinsJSON,
             .PrintOutput (.denoms l)]⟩) ∧
    (∃ l : SortedStringArray, l.val = [] ∧
      (GetCmdQueryDenoms demoEnv).Execute [] emptyNode
        = ⟨.nil, ⟨1, emptyJSON, none⟩,
            [.QueryWithData "custom/nft/denoms" [],
             .UnmarshalJSON .SortedStringArray emptyJSON,
             .PrintOutput (.denoms l)]⟩) :=
  ⟨⟨_, rfl,
      (denoms_renders_sorted demoEnv demoNode ⟨1, coinsJSON, none⟩ coinsJSON _ rfl rfl).1⟩,
   ⟨_, rfl,
      (denoms_renders_sorted demoEnv emptyNode ⟨1, emptyJSON, none⟩ emptyJSON _ rfl rfl).1⟩⟩

/-! ## Handling of the response -/

theorem supply_response {σ : Type} (env : Env σ) (denom : String) (w w1 : σ)
    (bz res : Bytes) (hM : env.MarshalJSON (NewQueryCollectionParams denom) = .ok bz)
    (hQ : env.QueryWithData (supplyPath (STOREKEY env) denom) bz w = (.ok res, w1)) :
    (GetCmdQueryCollectionSupply.RunE env [denom] w).ret
      = (handleResponse env .NFT env.UnmarshalNFT .nft res).1 ∧
    responseSide (GetCmdQueryCollectionSupply.RunE env [denom] w).calls
      = (handleResponse env .NFT env.UnmarshalNFT .nft res).2 := by
  unfold handleResponse
  rcases hU : env.UnmarshalNFT res with e | out <;>
    simp [GetCmdQueryCollectionSupply.RunE, hM, hQ, hU, responseSide, Event.isRequestSide]

theorem collection_response {σ : Type} (env : Env σ) (denom : String) (w w1 : σ)
    (bz res : Bytes) (hM : env.MarshalJSON (NewQueryCollectionParams denom) = .ok bz)
    (hQ : env.QueryWithData (collectionPath (STOREKEY env)) bz w = (.ok res, w1)) :
    (GetCmdQueryCollection.RunE env [denom] w).ret
      = (handleResponse env .Collection env.UnmarshalCollection .collection res).1 ∧
    responseSide (GetCmdQueryCollection.RunE env [denom] w).calls
      = (handleResponse env .Collection env.UnmarshalCollection .collection res).2 := by
  unfold handleResponse
  rcases hU : env.UnmarshalCollection res with e | out <;>
    simp [GetCmdQueryCollection.RunE, hM, hQ, hU, responseSide, Event.isRequestSide]

theorem nft_response {σ : Type} (env : Env σ) (denom id : String) (w w1 : σ)
    (bz res : Bytes) (hM : env.MarshalJSON (NewQueryNFTParams denom id) = .ok bz)
    (hQ : env.QueryWithData (nftPath (STOREKEY env)) bz w = (.ok res, w1)) :
    (GetCmdQueryNFT.RunE env [denom, id] w).ret
      = (handleResponse env .NFT env.UnmarshalNFT .nft res).1 ∧
    responseSide (GetCmdQueryNFT.RunE env [denom, id] w).calls
      = (handleResponse env .NFT env.UnmarshalNFT .nft res).2 := by
  unfold handleResponse
  rcases hU : env.UnmarshalNFT res with e | out <;>
    simp [GetCmdQueryNFT.RunE, hM, hQ, hU, responseSide, Event.isRequestSide]

theorem denoms_response {σ : Type} (env : Env σ) (w w1 : σ) (res : Bytes)
    (hQ : env.QueryWithData (denomsPath (STOREKEY env)) [] w = (.ok res, w1)) :
    (GetCmdQueryDenoms.RunE env [] w).ret
      = (handleResponse env .SortedStringArray env.UnmarshalSortedStringArray
          .denoms res).1 ∧
    responseSide (GetCmdQueryDenoms.RunE env [] w).calls
      = (handleResponse env .SortedStringArray env.UnmarshalSortedStringArray
          .denoms res).2 := by
  unfold handleResponse
  rcases hU : env.UnmarshalSortedStringArray res with e | out <;>
    simp [GetCmdQueryDenoms.RunE, hQ, hU, responseSide, Event.isRequestSide]

theorem owner_response {σ : Type} (env : Env σ) (arg0 : String) (rest : List String)
    (w w1 : σ) (address : AccAddress) (bz res : Bytes) (hr : rest.length ≤ 1)
    (ha : env.AccAddressFromBech32 arg0 = .ok address)
    (hM : env.MarshalJSON (NewQueryBalanceParams address (rest.getD 0 "")) = .ok bz)
    (hQ : env.QueryWithData (ownerQueryPath env (rest.getD 0 "")) bz w = (.ok res, w1)) :
    (GetCmdQueryOwner.RunE env (arg0 :: rest) w).ret
      = (handleResponse env .Owner env.UnmarshalOwner .owner res).1 ∧
    responseSide (GetCmdQueryOwner.RunE env (arg0 :: rest) w).calls
      = (handleResponse env .Owner env.UnmarshalOwner .owner res).2 := by
  unfold handleResponse GetCmdQueryOwner.RunE
  rw [owner_cons_filter arg0 rest hr]
  unfold ownerQueryPath at hQ
  generalize rest.getD 0 "" = denom at hM hQ
  rcases hU : env.UnmarshalOwner res with e | out <;>
    simp [ha, hM, hQ, hU, responseSide, Event.isRequestSide]

/-- C9: decoding performs no cross-validation against the request.  For each
command, two invocations (with any denominations, token IDs, addresses,
filters and worlds) whose transport calls return the same bytes return the
same value and make the same decoding and rendering calls, with the same
decoded value.  In particular whatever NFT the token query's response decodes
to is rendered and decides the result, whatever token was asked for. -/
theorem decoding_ignores_request {σ : Type} (env : Env σ) (res : Bytes)
    (w w' w1 w1' : σ) :
    (∀ d d' bz bz',
      env.MarshalJSON (NewQueryCollectionParams d) = .ok bz →
      env.MarshalJSON (NewQueryCollectionParams d') = .ok bz' →
      env.QueryWithData (supplyPath (STOREKEY env) d) bz w = (.ok res, w1) →
      env.QueryWithData (supplyPath (STOREKEY env) d') bz' w' = (.ok res, w1') →
        ((GetCmdQueryCollectionSupply env).Execute [d] w).ret
          = ((GetCmdQueryCollectionSupply env).Execute [d'] w').ret ∧
        responseSide ((GetCmdQueryCollectionSupply env).Execute [d] w).calls
          = responseSide ((GetCmdQueryCollectionSupply env).Execute [d'] w').calls) ∧
    (∀ a a' rest rest' address address' bz bz', rest.length ≤ 1 → rest'.length ≤ 1 →
      env.AccAddressFromBech32 a = .ok address →
      env.AccAddressFromBech32 a' = .ok address' →
      env.MarshalJSON (NewQueryBalanceParams address (rest.getD 0 "")) = .ok bz →
      env.MarshalJSON (NewQueryBalanceParams address' (rest'.getD 0 "")) = .ok bz' →
      env.QueryWithData (ownerQueryPath env (rest.getD 0 "")) bz w = (.ok res, w1) →
      env.QueryWithData (ownerQueryPath env (rest'.getD 0 "")) bz' w' = (.ok res, w1') →
        ((GetCmdQueryOwner env).Execute (a :: rest) w).ret
          = ((GetCmdQueryOwner env).Execute (a' :: rest') w').ret ∧
        responseSide ((GetCmdQueryOwner env).Execute (a :: rest) w).calls
          = responseSide ((GetCmdQueryOwner env).Execute (a' :: rest') w').calls) ∧
    (∀ d d' bz bz',
      env.MarshalJSON (NewQueryCollectionParams d) = .ok bz →
      env.MarshalJSON (NewQueryCollectionParams d') = .ok bz' →
      env.QueryWithData (collectionPath (STOREKEY env)) bz w = (.ok res, w1) →
      env.QueryWithData (collectionPath (STOREKEY env)) bz' w' = (.ok res, w1') →
        ((GetCmdQueryCollection env).Execute [d] w).ret
          = ((GetCmdQueryCollection env).Execute [d'] w').ret ∧
        responseSide ((GetCmdQueryCollection env).Execute [d] w).calls
          = responseSide ((GetCmdQueryCollection env).Execute [d'] w').calls) ∧
    (env.QueryWithData (denomsPath (STOREKEY env)) [] w = (.ok res, w1) →
      env.QueryWithData (denomsPath (STOREKEY env)) [] w' = (.ok res, w1') →
        ((GetCmdQueryDenoms env).Execute [] w).ret
          = ((GetCmdQueryDenoms env).Execute [] w').ret ∧
        responseSide ((GetCmdQueryDenoms env).Execute [] w).calls
          = responseSide ((GetCmdQueryDenoms env).Execute [] w').calls) ∧
    (∀ d id d' id' bz bz',
      env.MarshalJSON (NewQueryNFTParams d id) = .ok bz →
      env.MarshalJSON (NewQueryNFTParams d' id') = .ok bz' →
      env.QueryWithData (nftPath (STOREKEY env)) bz w = (.ok res, w1) →
      env.QueryWithData (nftPath (STOREKEY env)) bz' w' = (.ok res, w1') →
        ((GetCmdQueryNFT env).Execute [d, id] w).ret
          = ((GetCmdQueryNFT env).Execute [d', id'] w').ret ∧
        responseSide ((GetCmdQueryNFT env).Execute [d, id] w).calls
          = responseSide ((GetCmdQueryNFT env).Execute [d', id'] w').calls) ∧
    (∀ d id bz out,
      env.MarshalJSON (NewQueryNFTParams d id) = .ok bz →
      env.QueryWithData (nftPath (STOREKEY env)) bz w = (.ok res, w1) →
      env.UnmarshalNFT res = .ok out →
        ((GetCmdQueryNFT env).Execute [d, id] w).ret
          = .ofExcept (env.PrintOutput (.nft out)) ∧
        responseSide ((GetCmdQueryNFT env).Execute [d, id] w).calls
          = [.UnmarshalJSON .NFT res, .PrintOutput (.nft out)]) := by
  refine ⟨?_, ?_, ?_, ?_, ?_, ?_⟩
  · intro d d' bz bz' hM hM' hQ hQ'
    rw [supply_Execute_eq, supply_Execute_eq]
    have h := supply_response env d w w1 bz res hM hQ
    have h' := supply_response env d' w' w1' bz' res hM' hQ'
    exact ⟨h.1.trans h'.1.symm, h.2.trans h'.2.symm⟩
  · intro a a' rest rest' address address' bz bz' hr hr' ha ha' hM hM' hQ hQ'
    rw [owner_Execute_eq env (a :: rest) w (by simp only [List.length_cons]; omega),
      owner_Execute_eq env (a' :: rest') w' (by simp only [List.length_cons]; omega)]
    have h := owner_response env a rest w w1 address bz res hr ha hM hQ
    have h' := owner_response env a' rest' w' w1' address' bz' res hr' ha' hM' hQ'
    exact ⟨h.1.trans h'.1.symm, h.2.trans h'.2.symm⟩
  · intro d d' bz bz' hM hM' hQ hQ'
    rw [collection_Execute_eq, collection_Execute_eq]
    have h := collection_response env d w w1 bz res hM hQ
    have h' := collection_response env d' w' w1' bz' res hM' hQ'
    exact ⟨h.1.trans h'.1.symm, h.2.trans h'.2.symm⟩
  · intro hQ hQ'
    rw [denoms_Execute_eq, denoms_Execute_eq]
    have h := denoms_response env w w1 res hQ
    have h' := denoms_response env w' w1' res hQ'
    exact ⟨h.1.trans h'.1.symm, h.2.trans h'.2.symm⟩
  · intro d id d' id' bz bz' hM hM' hQ hQ'
    rw [nft_Execute_eq, nft_Execute_eq]
    have h := nft_response env d id w w1 bz res hM hQ
    have h' := nft_response env d' id' w' w1' bz' res hM' hQ'
    exact ⟨h.1.trans h'.1.symm, h.2.trans h'.2.symm⟩
  · intro d id bz out hM hQ hU
    rw [nft_Execute_eq]
    have h := nft_response env d id w w1 bz res hM hQ
    simp only [handleResponse, hU] at h
    exact h

/-- Witness for C9 on the concrete environment: a node answering every
request with the bytes `[3, 7, 3]` makes the token query succeed with the NFT
`token-3` both for the token `abc` of `kitties` and for the token `zz` of
`puppies`; neither the ID nor the denomination asked for is compared with the
response. -/
theorem decoding_ignores_request_witness :
    ((GetCmdQueryNFT demoEnv).Execute ["kitties", "abc"] (brokenNode [3, 7, 3])).ret = .nil ∧
    ((GetCmdQueryNFT demoEnv).Execute ["puppies", "zz"] (brokenNode [3, 7, 3])).ret = .nil ∧
    responseSide
        ((GetCmdQueryNFT demoEnv).Execute ["puppies", "zz"] (brokenNode [3, 7, 3])).calls
      = [.UnmarshalJSON .NFT [3, 7, 3], .PrintOutput (.nft ⟨"token-3", [], "meta"⟩)] ∧
    ((GetCmdQueryNFT demoEnv).Execute ["kitties", "abc"] (brokenNode [3, 7, 3])).ret
      = ((GetCmdQueryNFT demoEnv).Execute ["puppies", "zz"] (brokenNode [3, 7, 3])).ret :=
  have h := decoding_ignores_request demoEnv [3, 7, 3] (brokenNode [3, 7, 3])
    (brokenNode [3, 7, 3]) ⟨1, [], some [3, 7, 3]⟩ ⟨1, [], some [3, 7, 3]⟩
  ⟨by decide,
   (h.2.2.2.2.2 "puppies" "zz" [3, 7, 2] ⟨"token-3", [], "meta"⟩ rfl rfl rfl).1,
   (h.2.2.2.2.2 "puppies" "zz" [3, 7, 2] ⟨"token-3", [], "meta"⟩ rfl rfl rfl).2,
   (h.2.2.2.2.1 "kitties" "abc" "puppies" "zz" [3, 7, 3] [3, 7, 2] rfl rfl rfl rfl).1⟩

end Nft

namespace Nft

/-! ## The supply query decodes an NFT -/

/-- Amended C10: the supply query decodes its response with the decoder of
the single-token query, into the NFT shape, not into a count.  For every
response `res` the transport returns to it: it decodes `res` as an NFT; it
hands a value to the renderer exactly when the NFT decoder accepts `res`, and
then the decoded NFT; it returns the decoder's error when the decoder rejects
and otherwise what the renderer returns, so it returns `nil` exactly when the
decoder accepts and the renderer succeeds; a token query whose transport call
returns the same `res` returns the same value and makes the same decoding and
rendering calls.  The parameter object it encodes is the one the collection
query encodes for the same denomination, and both submit the bytes the
encoder produced for it. -/
theorem supply_decodes_as_token {σ : Type} (env : Env σ) (denom : String) (w w1 : σ)
    (bz res : Bytes)
    (hM : env.MarshalJSON (NewQueryCollectionParams denom) = .ok bz)
    (hQ : env.QueryWithData (supplyPath (STOREKEY env) denom) bz w = (.ok res, w1)) :
    Event.UnmarshalJSON .NFT res ∈ ((GetCmdQueryCollectionSupply env).Execute [denom] w).calls ∧
    (∀ rendered,
      Event.PrintOutput rendered ∈ ((GetCmdQueryCollectionSupply env).Execute [denom] w).calls ↔
        ∃ out, env.UnmarshalNFT res = .ok out ∧ rendered = .nft out) ∧
    ((GetCmdQueryCollectionSupply env).Execute [denom] w).ret
      = (match env.UnmarshalNFT res with
          | .error e => .err e
          | .ok out => .ofExcept (env.PrintOutput (.nft out))) ∧
    (((GetCmdQueryCollectionSupply env).Execute [denom] w).ret = .nil ↔
      ∃ out, env.UnmarshalNFT res = .ok out ∧ env.PrintOutput (.nft out) = .ok ()) ∧
    (∀ d' id' bz' w' w1',
      env.MarshalJSON (NewQueryNFTParams d' id') = .ok bz' →
      env.QueryWithData (nftPath (STOREKEY env)) bz' w' = (.ok res, w1') →
        ((GetCmdQueryCollectionSupply env).Execute [denom] w).ret
          = ((GetCmdQueryNFT env).Execute [d', id'] w').ret ∧
        responseSide ((GetCmdQueryCollectionSupply env).Execute [denom] w).calls
          = responseSide ((GetCmdQueryNFT env).Execute [d', id'] w').calls) ∧
    (∀ w',
      ((GetCmdQueryCollectionSupply env).Execute [denom] w).calls.head?
        = some (.MarshalJSON (.CollectionParams denom)) ∧
      ((GetCmdQueryCollection env).Execute [denom] w').calls.head?
        = some (.MarshalJSON (.CollectionParams denom)) ∧
      Event.QueryWithData (supplyPath (STOREKEY env) denom) bz
        ∈ ((GetCmdQueryCollectionSupply env).Execute [denom] w).calls ∧
      Event.QueryWithData (collectionPath (STOREKEY env)) bz
        ∈ ((GetCmdQueryCollection env).Execute [denom] w').calls) := by
  rw [supply_Execute_eq]
  refine ⟨?_, ?_, ?_, ?_, ?_, ?_⟩
  · rcases hU : env.UnmarshalNFT res with e | out <;>
      simp [GetCmdQueryCollectionSupply.RunE, hM, hQ, hU]
  · intro rendered
    rcases hU : env.UnmarshalNFT res with e | out <;>
      simp [GetCmdQueryCollectionSupply.RunE, hM, hQ, hU]
  · rcases hU : env.UnmarshalNFT res with e | out <;>
      simp [GetCmdQueryCollectionSupply.RunE, hM, hQ, hU]
  · rcases hU : env.UnmarshalNFT res with e | out
    · simp [GetCmdQueryCollectionSupply.RunE, hM, hQ, hU]
    · rcases hP : env.PrintOutput (.nft out) with e | u
      · simp [GetCmdQueryCollectionSupply.RunE, hM, hQ, hU, hP, Outcome.ofExcept]
      · simp [GetCmdQueryCollectionSupply.RunE, hM, hQ, hU, hP, Outcome.ofExcept]
  · intro d' id' bz' w' w1' hM' hQ'
    rw [nft_Execute_eq]
    have h := supply_response env denom w w1 bz res hM hQ
    have h' := nft_response env d' id' w' w1' bz' res hM' hQ'
    exact ⟨h.1.trans h'.1.symm, h.2.trans h'.2.symm⟩
  · intro w'
    rw [collection_Execute_eq]
    refine ⟨?_, ?_, ?_, ?_⟩
    · unfold GetCmdQueryCollectionSupply.RunE
      simp only [List.getElem?_cons_zero, hM, hQ]
      repeat' first | split | dsimp only
      all_goals simp [NewQueryCollectionParams]
    · unfold GetCmdQueryCollection.RunE
      simp only [List.getElem?_cons_zero, hM]
      repeat' first | split | dsimp only
      all_goals simp [NewQueryCollectionParams]
    · unfold GetCmdQueryCollectionSupply.RunE
      simp only [List.getElem?_cons_zero, hM, hQ]
      repeat' first | split | dsimp only
      all_goals simp
    · unfold GetCmdQueryCollection.RunE
      simp only [List.getElem?_cons_zero, hM]
      repeat' first | split | dsimp only
      all_goals simp

/-- Witness for the amended C10 on the concrete environment: answered with
the bytes `[3, 7, 3]`, the supply query for `kitties` renders the NFT
`token-3`, as the token query does. -/
theorem supply_decodes_as_token_witness :
    Event.PrintOutput (.nft ⟨"token-3", [], "meta"⟩)
      ∈ ((GetCmdQueryCollectionSupply demoEnv).Execute ["kitties"] (brokenNode [3, 7, 3])).calls ∧
    ((GetCmdQueryCollectionSupply demoEnv).Execute ["kitties"] (brokenNode [3, 7, 3])).ret
      = ((GetCmdQueryNFT demoEnv).Execute ["kitties", "abc"] (brokenNode [3, 7, 3])).ret :=
  have h := supply_decodes_as_token demoEnv "kitties" (brokenNode [3, 7, 3])
    ⟨1, [], some [3, 7, 3]⟩ [1, 7] [3, 7, 3] rfl rfl
  ⟨(h.2.1 _).2 ⟨⟨"token-3", [], "meta"⟩, rfl, rfl⟩,
   (h.2.2.2.2.1 "kitties" "abc" [3, 7, 3] (brokenNode [3, 7, 3])
      ⟨1, [], some [3, 7, 3]⟩ rfl rfl).1⟩

/-- Counterexample to C10 as stated: with a renderer that fails, the supply
query for `kitties` answered with the bytes `[3, 7, 3]` returns the
renderer's error although the NFT decoder accepts those bytes; so the command
does not succeed exactly when the decoder accepts. -/
theorem supply_fails_when_render_fails :
    demoEnvFailingPrint.UnmarshalNFT [3, 7, 3] = .ok ⟨"token-3", [], "meta"⟩ ∧
    (GetCmdQueryCollectionSupply demoEnvFailingPrint).Execute ["kitties"] (brokenNode [3, 7, 3])
      = ⟨.err ⟨"failed to marshal output"⟩, ⟨1, [], some [3, 7, 3]⟩,
          [.MarshalJSON (.CollectionParams "kitties"),
           .QueryWithData "custom/nft/supply/kitties" [1, 7],
           .UnmarshalJSON .NFT [3, 7, 3],
           .PrintOutput (.nft ⟨"token-3", [], "meta"⟩)]⟩ ∧
    ¬ ∀ (env : Env DemoNode) (denom : String) (w w1 : DemoNode) (bz res : Bytes),
        env.MarshalJSON (NewQueryCollectionParams denom) = .ok bz →
        env.QueryWithData (supplyPath (STOREKEY env) denom) bz w = (.ok res, w1) →
          (((GetCmdQueryCollectionSupply env).Execute [denom] w).ret = .nil ↔
            ∃ out, env.UnmarshalNFT res = .ok out) := by
  refine ⟨rfl, by decide, fun h => ?_⟩
  have h1 := (h demoEnvFailingPrint "kitties" (brokenNode [3, 7, 3])
    ⟨1, [], some [3, 7, 3]⟩ [1, 7] [3, 7, 3] rfl rfl).2 ⟨_, rfl⟩
  revert h1
  decide

end Nft
